import Mathlib

/-!
# Verification of the template-merge core of `quiz-from-user-text.py`

Shallow embedding of the H5P template-merge engine
(`build_questions_from_mc`, `create_h5p_from_template`), of the extractor
adapter (`clean_and_parse_questions`), and of the result-preview logic of
the Streamlit UI, together with proofs of the specification claims.

Modelling conventions:
* Python JSON values become the inductive `Json` below.  Python dicts are
  insertion-ordered association lists; assigning to an existing key keeps
  its position, assigning a new key appends it (exactly `setKey`).
* Python exceptions become `Except PyError`; `PyError` records the kind of
  exception the interpreter would raise (`KeyError`, `IndexError`,
  `TypeError`, `json.JSONDecodeError`, `RuntimeError`, `AttributeError`).
* `copy.deepcopy` is the identity on the value level (the aliasing content
  of deep copying is treated separately with an explicit heap model below).
* `uuid.uuid4()` is modelled as a stream `uuid : Nat → String` of fresh
  tokens, consumed in call order; the k-th call of a merge invocation
  yields `uuid k`.
* Zip archives are ordered lists of (name, payload) entries; payloads are
  modelled as `String` (UTF-8 decoding/encoding is the identity on the
  model's payloads).  `zipfile.ZipFile.read(name)` resolves a name through
  `NameToInfo`, which keeps the *last* entry bearing the name; `zipFind`
  mirrors that.
-/

set_option autoImplicit false
set_option maxRecDepth 10000

namespace QuizFromUserText

/-- JSON values, as produced by `json.loads`.  Numbers are integers: the
source never manipulates numeric fields and the claims never mention
non-integral numbers. -/
inductive Json where
  | null : Json
  | bool : Bool → Json
  | num : Int → Json
  | str : String → Json
  | arr : List Json → Json
  | obj : List (String × Json) → Json

/-- Kinds of Python exceptions the embedded code can raise. -/
inductive PyError where
  | keyError : String → PyError
  | indexError : PyError
  | typeError : PyError
  | jsonDecodeError : PyError
  | runtimeError : PyError
  | attributeError : PyError
  | badZipFile : PyError
deriving DecidableEq

/-- First-match lookup in an insertion-ordered dict. -/
def getKey : List (String × Json) → String → Option Json
  | [], _ => none
  | (k, v) :: rest, key => if k = key then some v else getKey rest key

/-- Python dict assignment `d[key] = v`: an existing key keeps its
position and gets the new value, a new key is appended at the end. -/
def setKey : List (String × Json) → String → Json → List (String × Json)
  | [], key, v => [(key, v)]
  | (k, w) :: rest, key, v =>
      if k = key then (key, v) :: rest else (k, w) :: setKey rest key v

/-- Python subscript read `j[k]` for a string key: `KeyError` when the key
is missing, `TypeError` when `j` is not a dict. -/
def getItem : Json → String → Except PyError Json
  | Json.obj fs, k =>
      match getKey fs k with
      | some v => Except.ok v
      | none => Except.error (PyError.keyError k)
  | _, _ => Except.error PyError.typeError

/-- Python subscript assignment `j[k] = v`: `TypeError` when `j` is not a
dict. -/
def setItem : Json → String → Json → Except PyError Json
  | Json.obj fs, k, v => Except.ok (Json.obj (setKey fs k v))
  | _, _, _ => Except.error PyError.typeError

/-- Python `seq[0]`: `IndexError` on an empty list, `TypeError` when the
value is not a list.  (For a string Python would return a character and
fail one step later, for a dict it would raise `KeyError 0`; the model
raises `TypeError` directly — the success/failure behaviour agrees.) -/
def arrFirst : Json → Except PyError Json
  | Json.arr (x :: _) => Except.ok x
  | Json.arr [] => Except.error PyError.indexError
  | _ => Except.error PyError.typeError

/-- A structured question record, as validated output of the extractor
(`{ question, answers, correct_index }` with `correct_index` optional —
the source reads it with `q.get("correct_index", 0)`). -/
structure QuestionRecord where
  question : String
  answers : List String
  correct_index : Option Int

/-- Source lines 100–106: the inner answer loop of
`build_questions_from_mc`.  For each answer text (with its 0-based
`enumerate` index), deep-copy `base_params["answers"][0]`, set its
`text`, and set `correct` to `bool(idx == correct_idx)`.  The lookup of
`base_params["answers"][0]` happens inside the loop, exactly as in the
source, so its failures only occur when some answer is processed. -/
def buildAnswers (base_params : Json) (correct_idx : Int) :
    List String → Nat → Except PyError (List Json)
  | [], _ => Except.ok []
  | ans :: rest, idx => do
      let baseAnswers ← getItem base_params "answers"
      let first ← arrFirst baseAnswers
      let a1 ← setItem first "text" (Json.str ans)
      let a2 ← setItem a1 "correct" (Json.bool (decide ((idx : Int) = correct_idx)))
      let more ← buildAnswers base_params correct_idx rest (idx + 1)
      Except.ok (a2 :: more)

/-- Source lines 93–114: one iteration of the `for i, q in
enumerate(mc_questions, start=1)` loop, with `k = i - 1` the 0-based
iteration count.  `copy.deepcopy(base_q)` is the identity on values, so
the copy's `params` equals `base_params` before mutation; the `uuid4()`
call of this iteration is `uuid k`. -/
def buildOne (uuid : Nat → String) (base_q : Json) (k : Nat)
    (q : QuestionRecord) : Except PyError Json := do
  let params ← getItem base_q "params"
  let p1 ← setItem params "question" (Json.str q.question)
  let correct_idx : Int := q.correct_index.getD 0
  let answers ← buildAnswers params correct_idx q.answers 0
  let p2 ← setItem p1 "answers" (Json.arr answers)
  let md ← getItem base_q "metadata"
  let md1 ← setItem md "title" (Json.str ("Vraag " ++ toString (k + 1)))
  let md2 ← setItem md1 "extraTitle" (Json.str ("Vraag " ++ toString (k + 1)))
  let q1 ← setItem base_q "params" p2
  let q2 ← setItem q1 "metadata" md2
  setItem q2 "subContentId" (Json.str (uuid k))

/-- The per-record loop of `build_questions_from_mc`, collecting the new
question objects in order. -/
def buildLoop (uuid : Nat → String) (base_q : Json) :
    Nat → List QuestionRecord → Except PyError (List Json)
  | _, [] => Except.ok []
  | k, q :: rest => do
      let q1 ← buildOne uuid base_q k q
      let more ← buildLoop uuid base_q (k + 1) rest
      Except.ok (q1 :: more)

/-- Source lines 82–116: `build_questions_from_mc(mc_questions,
template_content)`.  Line 88 takes `template_content["questions"][0]` as
the skeleton, line 89 evaluates `base_q["params"]` once up front, then the
loop produces one new question per record. -/
def build_questions_from_mc (uuid : Nat → String)
    (mc_questions : List QuestionRecord) (template_content : Json) :
    Except PyError (List Json) := do
  let questions ← getItem template_content "questions"
  let base_q ← arrFirst questions
  let _base_params ← getItem base_q "params"
  buildLoop uuid base_q 0 mc_questions

/-! ## Serialization and parsing (`json.dumps` / `json.loads`) -/

/-- Escape a character inside a JSON string literal (the payloads used by
the claims contain no control characters). -/
def escChar (c : Char) : List Char :=
  if c = '"' ∨ c = '\\' then ['\\', c] else [c]

/-- Serialize a string as a JSON string literal. -/
def dumpString (s : String) : String :=
  String.mk ('"' :: (s.data.flatMap escChar ++ ['"']))

mutual
/-- Models `json.dumps(v, ensure_ascii=False, indent=2)` up to whitespace
layout (the model emits the compact layout; no claim depends on the
whitespace of the serialized document). -/
def dumpJson : Json → String
  | Json.null => "null"
  | Json.bool true => "true"
  | Json.bool false => "false"
  | Json.num n => toString n
  | Json.str s => dumpString s
  | Json.arr xs => "[" ++ dumpArr xs ++ "]"
  | Json.obj fs => "\x7b" ++ dumpObj fs ++ "\x7d"

/-- Comma-separated serialization of array elements. -/
def dumpArr : List Json → String
  | [] => ""
  | [x] => dumpJson x
  | x :: y :: xs => dumpJson x ++ ", " ++ dumpArr (y :: xs)

/-- Comma-separated serialization of object fields. -/
def dumpObj : List (String × Json) → String
  | [] => ""
  | [(k, v)] => dumpString k ++ ": " ++ dumpJson v
  | (k, v) :: f :: fs => dumpString k ++ ": " ++ dumpJson v ++ ", " ++ dumpObj (f :: fs)
end

/-- Whitespace skipping for the parser. -/
def skipWs : List Char → List Char
  | c :: cs => if c = ' ' ∨ c = '\n' ∨ c = '\t' ∨ c = '\r' then skipWs cs else c :: cs
  | [] => []

/-- Parse the body of a JSON string literal after the opening quote. -/
def parseStringBody : List Char → Option (String × List Char)
  | [] => none
  | '"' :: cs => some ("", cs)
  | '\\' :: e :: cs =>
      let esc : Option Char :=
        if e = '"' then some '"'
        else if e = '\\' then some '\\'
        else if e = 'n' then some '\n'
        else if e = 't' then some '\t'
        else none
      match esc with
      | none => none
      | some c =>
          match parseStringBody cs with
          | some (s, rest) => some (String.mk (c :: s.data), rest)
          | none => none
  | '\\' :: [] => none
  | c :: cs =>
      match parseStringBody cs with
      | some (s, rest) => some (String.mk (c :: s.data), rest)
      | none => none

/-- Parse the longest digit prefix. -/
def parseNat : List Char → Option (Nat × List Char)
  | c :: cs =>
      if c.isDigit then
        let rec go : List Char → Nat → Nat × List Char
          | d :: ds, acc =>
              if d.isDigit then go ds (acc * 10 + (d.toNat - '0'.toNat))
              else (acc, d :: ds)
          | [], acc => (acc, [])
        some (go (c :: cs) 0)
      else none
  | [] => none

mutual
/-- Fuel-indexed recursive-descent JSON parser (the model of
`json.loads`; fuel bounds the nesting depth and is instantiated with the
input length, which always suffices). -/
def parseVal : Nat → List Char → Option (Json × List Char)
  | 0, _ => none
  | fuel + 1, cs =>
      match skipWs cs with
      | 'n' :: 'u' :: 'l' :: 'l' :: rest => some (Json.null, rest)
      | 't' :: 'r' :: 'u' :: 'e' :: rest => some (Json.bool true, rest)
      | 'f' :: 'a' :: 'l' :: 's' :: 'e' :: rest => some (Json.bool false, rest)
      | '"' :: rest =>
          match parseStringBody rest with
          | some (s, rest2) => some (Json.str s, rest2)
          | none => none
      | '-' :: rest =>
          match parseNat rest with
          | some (n, rest2) => some (Json.num (-(n : Int)), rest2)
          | none => none
      | '[' :: rest =>
          (match skipWs rest with
           | ']' :: rest2 => some (Json.arr [], rest2)
           | other =>
               match parseElems fuel other with
               | some (xs, rest2) => some (Json.arr xs, rest2)
               | none => none)
      | '\x7b' :: rest =>
          (match skipWs rest with
           | '\x7d' :: rest2 => some (Json.obj [], rest2)
           | other =>
               match parseFields fuel other with
               | some (fs, rest2) =>
                   -- Python builds the dict by inserting the parsed pairs in
                   -- order, so duplicate keys keep the first position and the
                   -- last value.
                   some (Json.obj (fs.foldl (fun acc kv => setKey acc kv.1 kv.2) []), rest2)
               | none => none)
      | c :: rest =>
          if c.isDigit then
            match parseNat (c :: rest) with
            | some (n, rest2) => some (Json.num (n : Int), rest2)
            | none => none
          else none
      | [] => none

/-- Parse one or more comma-separated array elements followed by `]`. -/
def parseElems : Nat → List Char → Option (List Json × List Char)
  | 0, _ => none
  | fuel + 1, cs =>
      match parseVal fuel cs with
      | none => none
      | some (x, rest) =>
          match skipWs rest with
          | ',' :: rest2 =>
              (match parseElems fuel rest2 with
               | some (xs, rest3) => some (x :: xs, rest3)
               | none => none)
          | ']' :: rest2 => some ([x], rest2)
          | _ => none

/-- Parse one or more comma-separated `"key": value` fields followed by
the closing brace, as a raw pair list (the caller folds duplicates). -/
def parseFields : Nat → List Char → Option (List (String × Json) × List Char)
  | 0, _ => none
  | fuel + 1, cs =>
      match skipWs cs with
      | '"' :: rest =>
          (match parseStringBody rest with
           | none => none
           | some (k, rest2) =>
               match skipWs rest2 with
               | ':' :: rest3 =>
                   (match parseVal fuel rest3 with
                    | none => none
                    | some (v, rest4) =>
                        match skipWs rest4 with
                        | ',' :: rest5 =>
                            (match parseFields fuel rest5 with
                             | some (fs, rest6) => some ((k, v) :: fs, rest6)
                             | none => none)
                        | '\x7d' :: rest5 => some ([(k, v)], rest5)
                        | _ => none)
               | _ => none)
      | _ => none
end

/-- Models `json.loads`: parse a full document, requiring only trailing
whitespace after the value. -/
def loads (s : String) : Option Json :=
  match parseVal (s.length + 1) s.data with
  | some (j, rest) => if skipWs rest = [] then some j else none
  | none => none

/-! ## The archive level (`create_h5p_from_template`) -/

/-- One zip entry: name and byte payload (payloads are modelled as
strings; equality of payloads is byte-for-byte equality). -/
structure ZEntry where
  name : String
  payload : String

/-- The fixed path of the content description inside the package. -/
def cpath : String := "content/content.json"

/-- Name resolution of `zipfile`: `ZipFile.read(name)` goes through the
`NameToInfo` map, which is filled in central-directory order, so the
*last* entry bearing `name` wins. -/
def zipFind (entries : List ZEntry) (nm : String) : Option ZEntry :=
  (entries.filter (fun e => e.name = nm)).getLast?

/-- Read `zin.read(nm)`: payload of the last entry named `nm`, `KeyError` when
no entry has that name. -/
def zipRead (entries : List ZEntry) (nm : String) : Except PyError String :=
  match zipFind entries nm with
  | some e => Except.ok e.payload
  | none => Except.error (PyError.keyError nm)

/-- Source lines 144–149: the output loop.  Every input entry is written
in its original order under its original name; its payload is re-read *by
name* (`zin.read(item.filename)`) and the content-description entry's
payload is replaced with the new serialized document.  The `none` branch
of the name lookup is unreachable because the item comes from the entry
list itself. -/
def writeEntries (zin : List ZEntry) (new_content_bytes : String) : List ZEntry :=
  zin.map fun item =>
    let data := match zipFind zin item.name with
      | some e => e.payload
      | none => ""
    ⟨item.name, if item.name = cpath then new_content_bytes else data⟩

/-- Source lines 128–137 restricted to the content document: read
`content/content.json`, parse it, build the new questions, and replace the
`questions` field.  (`json.JSONDecodeError` is what line 130 raises on a
malformed document.) -/
def mergedContent (uuid : Nat → String) (template : List ZEntry)
    (mc_questions : List QuestionRecord) : Except PyError Json := do
  let bytes ← zipRead template cpath
  let content_json ← match loads bytes with
    | some j => Except.ok j
    | none => Except.error PyError.jsonDecodeError
  let new_questions ← build_questions_from_mc uuid mc_questions content_json
  setItem content_json "questions" (Json.arr new_questions)

/-- Source lines 139–141: the serialized updated document
(`new_content_bytes`). -/
def prepareContent (uuid : Nat → String) (template : List ZEntry)
    (mc_questions : List QuestionRecord) : Except PyError String :=
  (mergedContent uuid template mc_questions).map dumpJson

/-- Source lines 119–149: `create_h5p_from_template`, at the value level
for archives whose entries all read successfully (the physical model
below, `createRun`, additionally tracks lazily-failing entry reads and
the state of the output file). -/
def create_h5p_from_template (uuid : Nat → String) (template : List ZEntry)
    (mc_questions : List QuestionRecord) : Except PyError (List ZEntry) := do
  let new_content_bytes ← prepareContent uuid template mc_questions
  Except.ok (writeEntries template new_content_bytes)

/-! ## The physical layer: lazily-failing entry reads and the output file

`zipfile` parses the central directory when the archive opens, so
`infolist()` and `NameToInfo` list every entry, but the entry *data* is
only read — and its CRC only verified — when `ZipFile.read` is called; a
corrupt entry therefore raises `BadZipFile` in the middle of the write
loop of lines 145–149, after `ZipFile(output_h5p_path, "w")` (line 144)
has already created the output file.  The model below makes that
explicit: a `RawEntry` carries the result its read produces, and
`createRun` returns the state of the output path together with the error
raised, if any. -/

/-- An archive entry as the container physically holds it: the name is
listed in the central directory, and `data` is the result that
`ZipFile.read` produces for it (`Except.error` for a corrupt entry whose
CRC check fails on read). -/
structure RawEntry where
  name : String
  data : Except PyError String

/-- Name resolution over physical entries (last same-named entry wins,
as in `NameToInfo`). -/
def rawFind (entries : List RawEntry) (nm : String) : Option RawEntry :=
  (entries.filter (fun e => e.name = nm)).getLast?

/-- Read `zin.read(nm)` over physical entries: `KeyError` when no entry
bears the name, otherwise whatever reading the resolved entry
produces. -/
def rawRead (entries : List RawEntry) (nm : String) : Except PyError String :=
  match rawFind entries nm with
  | some e => e.data
  | none => Except.error (PyError.keyError nm)

/-- Forget the physical layer (faithful when every entry is
readable). -/
def toZEntry (e : RawEntry) : ZEntry :=
  ⟨e.name, match e.data with
    | Except.ok d => d
    | Except.error _ => ""⟩

/-- Every entry of the archive reads successfully. -/
def allReadable (entries : List RawEntry) : Bool :=
  entries.all (fun e => match e.data with
    | Except.ok _ => true
    | Except.error _ => false)

/-- The payload a successful read of `nm` yields (junk when the read
fails — only used on positions whose read succeeded). -/
def readD (all : List RawEntry) (nm : String) : String :=
  match rawRead all nm with
  | Except.ok d => d
  | Except.error _ => ""

/-- The output entry the loop writes for item `e` once its read
succeeded: original name, payload re-read by name, content-description
payload overridden with the serialized document. -/
def outEntry (all : List RawEntry) (nb : String) (e : RawEntry) : ZEntry :=
  ⟨e.name, if e.name = cpath then nb else readD all e.name⟩

/-- The write loop of lines 145–149 at the file-system level: for each
item, `zin.read(item.filename)` runs first and may raise; on success the
(possibly overridden) payload is appended to the output file.  The first
failing read aborts the loop, leaving the entries written so far at the
output path. -/
def writeRun (all : List RawEntry) (nb : String) :
    List RawEntry → List ZEntry → List ZEntry × Option PyError
  | [], written => (written, none)
  | e :: rest, written =>
      match rawRead all e.name with
      | Except.error err => (written, some err)
      | Except.ok d =>
          writeRun all nb rest
            (written ++ [⟨e.name, if e.name = cpath then nb else d⟩])

/-- The outputs of the longest item prefix whose reads all succeed. -/
def okPrefixOut (all : List RawEntry) (nb : String) : List RawEntry → List ZEntry
  | [] => []
  | e :: rest =>
      match rawRead all e.name with
      | Except.error _ => []
      | Except.ok d =>
          ⟨e.name, if e.name = cpath then nb else d⟩ :: okPrefixOut all nb rest

/-- The first read error the loop hits, if any. -/
def firstReadErr (all : List RawEntry) : List RawEntry → Option PyError
  | [] => none
  | e :: rest =>
      match rawRead all e.name with
      | Except.error err => some err
      | Except.ok _ => firstReadErr all rest

/-- Lines 128–141 over physical entries: the fallible preparation phase
(content read, parse, question construction, serialization), all of it
performed before the output archive is opened. -/
def prepareRun (uuid : Nat → String) (template : List RawEntry)
    (mc_questions : List QuestionRecord) : Except PyError String := do
  let bytes ← rawRead template cpath
  let content_json ← match loads bytes with
    | some j => Except.ok j
    | none => Except.error PyError.jsonDecodeError
  let new_questions ← build_questions_from_mc uuid mc_questions content_json
  let updated ← setItem content_json "questions" (Json.arr new_questions)
  Except.ok (dumpJson updated)

/-- `create_h5p_from_template` at the file-system level: the pair holds
the state of the output path when the call returns or raises (`none` =
no file was created) and the raised error, if any.  The output file
comes into existence at line 144, only after `prepareRun` succeeded;
from then on the write loop appends entries, and a failing entry read
leaves the partial file behind. -/
def createRun (uuid : Nat → String) (template : List RawEntry)
    (mc_questions : List QuestionRecord) :
    Option (List ZEntry) × Option PyError :=
  match prepareRun uuid template mc_questions with
  | Except.error e => (none, some e)
  | Except.ok nb =>
      let r := writeRun template nb template []
      (some r.1, r.2)

/-! ## The extractor adapter (`clean_and_parse_questions`) -/

/-- Python `data.get(key, default)`: `AttributeError` when `data` is not a
dict. -/
def dictGet (data : Json) (key : String) (default : Json) : Except PyError Json :=
  match data with
  | Json.obj fs => Except.ok ((getKey fs key).getD default)
  | _ => Except.error PyError.attributeError

/-- Source lines 72–78: the response-handling tail of
`clean_and_parse_questions`.  The service response `raw` is parsed with
`json.loads`; a parse failure is re-raised as `RuntimeError` ("Model
antwoordde geen geldige JSON"); otherwise `data.get("questions", [])` is
returned with no further validation. -/
def clean_and_parse_questions (raw : String) : Except PyError Json := do
  let data ← match loads raw with
    | some d => Except.ok d
    | none => Except.error PyError.runtimeError
  dictGet data "questions" (Json.arr [])

/-! ## Pure view of the success path

Total functions computing the values the embedded code produces when it
does not raise; the lemmas below prove the `Except`-level code equal to
them under the well-formedness conditions of the template. -/

/-- Total read of an object field (`Json.null` when absent or not an
object). -/
def getJ : Json → String → Json
  | Json.obj fs, k => (getKey fs k).getD Json.null
  | _, _ => Json.null

/-- Total head of an array (`Json.null` otherwise). -/
def headJ : Json → Json
  | Json.arr (x :: _) => x
  | _ => Json.null

/-- Total field assignment (identity on non-objects). -/
def setJ : Json → String → Json → Json
  | Json.obj fs, k, v => Json.obj (setKey fs k v)
  | j, _, _ => j

/-- Is the value a dict? -/
def isObjB : Json → Bool
  | Json.obj _ => true
  | _ => false

/-- Is the value a dict with the given key? -/
def hasKeyB : Json → String → Bool
  | Json.obj fs, k => (getKey fs k).isSome
  | _, _ => false

/-- The skeleton: first element of the `questions` field. -/
def skelOf (tc : Json) : Json := headJ (getJ tc "questions")

/-- The value of one rebuilt answer entry: the skeleton's first answer
with `text` and `correct` overwritten (source lines 103–105). -/
def projectAnswer (a0 : Json) (ci : Int) (idx : Nat) (t : String) : Json :=
  setJ (setJ a0 "text" (Json.str t)) "correct" (Json.bool (decide ((idx : Int) = ci)))

/-- The rebuilt answers sequence, in record order. -/
def projectAnswers (a0 : Json) (ci : Int) : List String → Nat → List Json
  | [], _ => []
  | t :: rest, idx => projectAnswer a0 ci idx t :: projectAnswers a0 ci rest (idx + 1)

/-- The value of one generated question: the skeleton with question text,
answers, titles and identifier overwritten (source lines 93–112, 0-based
iteration count `k`). -/
def projectQuestion (uuid : Nat → String) (base_q : Json) (k : Nat)
    (q : QuestionRecord) : Json :=
  let params := getJ base_q "params"
  let a0 := headJ (getJ params "answers")
  let ci : Int := q.correct_index.getD 0
  let p2 := setJ (setJ params "question" (Json.str q.question)) "answers"
    (Json.arr (projectAnswers a0 ci q.answers 0))
  let t := Json.str ("Vraag " ++ toString (k + 1))
  let md2 := setJ (setJ (getJ base_q "metadata") "title" t) "extraTitle" t
  setJ (setJ (setJ base_q "params" p2) "metadata" md2) "subContentId" (Json.str (uuid k))

/-- The full generated question list, in record order. -/
def buildPure (uuid : Nat → String) (base_q : Json) :
    Nat → List QuestionRecord → List Json
  | _, [] => []
  | k, q :: rest => projectQuestion uuid base_q k q :: buildPure uuid base_q (k + 1) rest

/-! ## Well-formedness of the template -/

/-- The failure-free conditions evaluated before the record loop: the
content description is a dict whose `questions` field is a nonempty list
whose first element is a dict with a `params` key (lines 88–89). -/
def qShapeOk (tc : Json) : Bool :=
  match tc with
  | Json.obj fs =>
      match getKey fs "questions" with
      | some (Json.arr (bq :: _)) => hasKeyB bq "params"
      | _ => false
  | _ => false

/-- The conditions every loop iteration needs: the skeleton's `params`
and `metadata` values are dicts (lines 94–97 and 110–111). -/
def recordStepOk (bq : Json) : Bool :=
  isObjB (getJ bq "params") && isObjB (getJ bq "metadata")

/-- The condition each nonempty answer list needs, on the `params` value:
its `answers` field is a nonempty list whose first element is a dict
(lines 103–105). -/
def answersOkP (pv : Json) : Bool :=
  match getJ pv "answers" with
  | Json.arr (a0 :: _) => isObjB a0
  | _ => false

/-- Complete well-formedness of the template's content description, per
the spec's `TemplateSkeleton` data model: a nonempty `questions` list
whose first entry is a dict carrying a `params` dict (with a usable
nonempty `answers` list) and a `metadata` dict. -/
def templateWF (tc : Json) : Bool :=
  match tc with
  | Json.obj tfs =>
      (match getKey tfs "questions" with
       | some (Json.arr (Json.obj bfs :: _)) =>
           (match getKey bfs "params", getKey bfs "metadata" with
            | some (Json.obj pfs), some (Json.obj _) =>
                (match getKey pfs "answers" with
                 | some (Json.arr (Json.obj _ :: _)) => true
                 | _ => false)
            | _, _ => false)
       | _ => false)
  | _ => false

/-- Does `Except` hold an error? -/
def isErrB {α : Type} : Except PyError α → Bool
  | Except.error _ => true
  | Except.ok _ => false

/-! ## The result preview of the Streamlit UI (source lines 291–301) -/

/-- Line 294: `correct_index = q.get("correct_index", -1)`. -/
def preview_correct_index (q : QuestionRecord) : Int :=
  q.correct_index.getD (-1)

/-- Line 300: the preview shows the "Juiste antwoord niet correct
aangegeven" warning exactly when the retrieved index is `-1`, i.e. in
particular whenever `correct_index` is absent from the record. -/
def preview_flags_missing (q : QuestionRecord) : Bool :=
  preview_correct_index q = -1

/-- The conditions under which `build_questions_from_mc` raises, stated
structurally: the static shape check of lines 88–89 fails, or there is at
least one record and a per-iteration condition fails, or some record has
at least one answer and the skeleton's first answer is unusable. -/
def buildFails (tc : Json) (mc : List QuestionRecord) : Bool :=
  !qShapeOk tc ||
  (!mc.isEmpty && !recordStepOk (skelOf tc)) ||
  (mc.any (fun q => !q.answers.isEmpty) && !answersOkP (getJ (skelOf tc) "params"))

/-- The conditions under which `create_h5p_from_template` raises: no
content-description entry, an unparseable content document, or a
`buildFails` condition on the parsed document. -/
def mergeFails (template : List ZEntry) (mc : List QuestionRecord) : Bool :=
  match zipFind template cpath with
  | none => true
  | some e =>
      match loads e.payload with
      | none => true
      | some tc => buildFails tc mc

/-! ## Heap model of deep copying

`copy.deepcopy` matters through aliasing, which value semantics cannot
see.  The model below makes object identity explicit: dicts and lists are
heap cells addressed by naturals, scalars are immutable leaves.
`allocJson` lays a JSON tree out in fresh cells starting at a given
counter — exactly what `copy.deepcopy` does to a tree produced by
`json.loads` (such trees have no internal sharing, and the source's
subsequent field assignments only mutate the fresh cells of the copy
itself), so the object graph of each generated question is the fresh
allocation of its final value. -/

/-- A heap value: an immutable scalar or a reference to a mutable cell. -/
inductive HVal where
  | leafNull : HVal
  | leafBool : Bool → HVal
  | leafNum : Int → HVal
  | leafStr : String → HVal
  | ref : Nat → HVal
deriving DecidableEq

/-- A mutable heap cell: a Python dict or list. -/
inductive HNode where
  | dict : List (String × HVal) → HNode
  | list : List HVal → HNode
deriving DecidableEq

/-- A heap fragment: cells addressed by naturals. -/
abbrev Heap := List (Nat × HNode)

mutual
/-- Allocate a JSON tree in fresh cells, addresses starting at `n`;
returns the root value, the fragment of new cells, and the next free
address. -/
def allocJson : Json → Nat → HVal × Heap × Nat
  | Json.null, n => (HVal.leafNull, [], n)
  | Json.bool b, n => (HVal.leafBool b, [], n)
  | Json.num m, n => (HVal.leafNum m, [], n)
  | Json.str s, n => (HVal.leafStr s, [], n)
  | Json.arr xs, n =>
      let r := allocList xs n
      (HVal.ref r.2.2, r.2.1 ++ [(r.2.2, HNode.list r.1)], r.2.2 + 1)
  | Json.obj fs, n =>
      let r := allocFields fs n
      (HVal.ref r.2.2, r.2.1 ++ [(r.2.2, HNode.dict r.1)], r.2.2 + 1)

/-- Allocate the elements of an array in sequence. -/
def allocList : List Json → Nat → List HVal × Heap × Nat
  | [], n => ([], [], n)
  | x :: xs, n =>
      let r1 := allocJson x n
      let r2 := allocList xs r1.2.2
      (r1.1 :: r2.1, r1.2.1 ++ r2.2.1, r2.2.2)

/-- Allocate the values of an object's fields in sequence. -/
def allocFields : List (String × Json) → Nat → List (String × HVal) × Heap × Nat
  | [], n => ([], [], n)
  | kv :: fs, n =>
      let r1 := allocJson kv.2 n
      let r2 := allocFields fs r1.2.2
      ((kv.1, r1.1) :: r2.1, r1.2.1 ++ r2.2.1, r2.2.2)
end

/-- Allocate a sequence of JSON trees one after the other, returning each
tree's root value and fresh fragment, plus the final counter — the heap
effect of the successive `copy.deepcopy` calls of the record loop. -/
def allocSeq : List Json → Nat → List (HVal × Heap) × Nat
  | [], n => ([], n)
  | q :: qs, n =>
      let r := allocJson q n
      let rest := allocSeq qs r.2.2
      ((r.1, r.2.1) :: rest.1, rest.2)

/-- The mutable cells a fragment owns. -/
def fragDom (fr : HVal × Heap) : List Nat := fr.2.map Prod.fst

/-- Point lookup in a heap. -/
def hlookup : Heap → Nat → Option HNode
  | [], _ => none
  | (a, nd) :: h, b => if a = b then some nd else hlookup h b

/-- In-place mutation of the cell at address `a` (Python's
`obj[...] = …` on the dict or list living at `a`). -/
def hset : Heap → Nat → HNode → Heap
  | [], _, _ => []
  | (b, nd0) :: h, a, nd =>
      if b = a then (a, nd) :: hset h a nd else (b, nd0) :: hset h a nd

/-- The heap fragments of the generated questions: the record loop
deep-copies the skeleton once per record, so question `i`'s object graph
is laid out in the cells allocated for the `i`-th value, starting from the
first address `n0` that is free after the template was parsed. -/
def questionHeapFragments (uuid : Nat → String) (mc : List QuestionRecord)
    (tc : Json) (n0 : Nat) : List (HVal × Heap) :=
  match build_questions_from_mc uuid mc tc with
  | Except.ok qs => (allocSeq qs n0).1
  | Except.error _ => []


/-! ## Concrete fixtures for witnesses and counterexamples -/

/-- An injective stream standing in for the `uuid.uuid4()` call sequence
of one merge invocation. -/
def uuidW : Nat → String := fun n => String.mk (List.replicate n 'u')

/-- A well-formed content description with one template question and one
extra top-level field. -/
def wfContent : Json := Json.obj [
  ("questions", Json.arr [Json.obj [
      ("params", Json.obj [
          ("question", Json.str "Q0"),
          ("answers", Json.arr [Json.obj [
              ("text", Json.str "a0"),
              ("correct", Json.bool true),
              ("feedback", Json.str "fb")]]),
          ("behaviour", Json.str "beh")]),
      ("metadata", Json.obj [
          ("title", Json.str "T0"),
          ("extraTitle", Json.str "T0")]),
      ("subContentId", Json.str "orig-id")]]),
  ("title", Json.str "My Quiz")]

/-- A well-formed template archive with a binary asset entry. -/
def wfArchive : List ZEntry :=
  [⟨"h5p.json", "meta"⟩, ⟨cpath, dumpJson wfContent⟩, ⟨"images/p.png", "PNG"⟩]

/-- The spec's round-trip record: answers A–D with `correct_index = 2`. -/
def recABCD : QuestionRecord := ⟨"What?", ["A", "B", "C", "D"], some 2⟩

/-- A record without a `correct_index`. -/
def recNoIdx : QuestionRecord := ⟨"Who?", ["X", "Y", "Z"], none⟩

/-- A record whose `correct_index` matches no answer position. -/
def recOutOfRange : QuestionRecord := ⟨"Which?", ["P", "Q"], some 7⟩

/-- An archive with two identically-named asset entries carrying
different payloads (legal in a zip container). -/
def dupArchive : List ZEntry :=
  [⟨"a.bin", "old"⟩, ⟨"a.bin", "new"⟩,
   ⟨cpath, dumpJson (Json.obj
     [("questions", Json.arr [Json.obj [("params", Json.obj [])]])])⟩]

/-- A content description whose `questions` list is nonempty but whose
first question is an empty dict: none of the spec's three
`TemplateFormatError` conditions holds, yet the merge raises. -/
def badSkelContent : Json := Json.obj [("questions", Json.arr [Json.obj []])]

/-- The archive carrying `badSkelContent`. -/
def badSkelArchive : List ZEntry := [⟨cpath, dumpJson badSkelContent⟩]

/-- The skeleton's first answer entry — the per-answer template of the
rebuild loop. -/
def skelAnswerTemplate (tc : Json) : Json :=
  headJ (getJ (getJ (skelOf tc) "params") "answers")

/-- The archive `wfArchive` at the physical layer: every entry reads
successfully. -/
def wfRawArchive : List RawEntry :=
  [⟨"h5p.json", Except.ok "meta"⟩,
   ⟨cpath, Except.ok (dumpJson wfContent)⟩,
   ⟨"images/p.png", Except.ok "PNG"⟩]

/-- An archive whose central directory lists two entries, the content
description (readable) and an asset whose data is corrupt: reading it
raises `BadZipFile` — which only happens inside the write loop, after
the output file exists. -/
def corruptArchive : List RawEntry :=
  [⟨cpath, Except.ok (dumpJson wfContent)⟩,
   ⟨"broken.png", Except.error PyError.badZipFile⟩]

/-- The heap fragment of the first generated question in a concrete
two-record merge, the skeleton having been parsed below address 100. -/
def friW : HVal × Heap :=
  ((questionHeapFragments uuidW [recABCD, recNoIdx] wfContent 100).get? 0).getD
    (HVal.leafNull, [])

/-- The heap fragment of the second generated question of the same
merge. -/
def frjW : HVal × Heap :=
  ((questionHeapFragments uuidW [recABCD, recNoIdx] wfContent 100).get? 1).getD
    (HVal.leafNull, [])

/-! ## Dictionary lemmas -/

theorem getKey_setKey_self (fs : List (String × Json)) (k : String) (v : Json) :
    getKey (setKey fs k v) k = some v := by
  induction fs with
  | nil => simp [getKey, setKey]
  | cons p rest ih =>
      by_cases h : p.1 = k
      · simp [getKey, setKey, h]
      · simp [getKey, setKey, h, ih]

theorem getKey_setKey_other (fs : List (String × Json)) (k kk : String) (v : Json)
    (hne : kk ≠ k) : getKey (setKey fs k v) kk = getKey fs kk := by
  have hne2 : ¬(k = kk) := fun h => hne (Eq.symm h)
  induction fs with
  | nil => simp [getKey, setKey, hne2]
  | cons p rest ih =>
      obtain ⟨pk, pw⟩ := p
      by_cases h : pk = k
      · subst h
        simp [getKey, setKey, hne2]
      · simp [getKey, setKey, h, ih]

theorem getJ_setJ_self (fs : List (String × Json)) (k : String) (v : Json) :
    getJ (setJ (Json.obj fs) k v) k = v := by
  simp [setJ, getJ, getKey_setKey_self]

theorem getJ_setJ_other (fs : List (String × Json)) (k kk : String) (v : Json)
    (hne : kk ≠ k) : getJ (setJ (Json.obj fs) k v) kk = getJ (Json.obj fs) kk := by
  simp [setJ, getJ, getKey_setKey_other fs k kk v hne]

/-! ## `Except` plumbing -/

theorem ok_bind {α β : Type} (a : α) (f : α → Except PyError β) :
    (Except.ok a >>= f) = f a := rfl

theorem error_bind {α β : Type} (e : PyError) (f : α → Except PyError β) :
    ((Except.error e : Except PyError α) >>= f) = Except.error e := rfl

/-! ## The success path equals the pure projection -/

theorem buildAnswers_ok (pfs : List (String × Json)) (afs : List (String × Json))
    (arest : List Json)
    (ha : getKey pfs "answers" = some (Json.arr (Json.obj afs :: arest)))
    (ci : Int) (l : List String) (idx : Nat) :
    buildAnswers (Json.obj pfs) ci l idx =
      Except.ok (projectAnswers (Json.obj afs) ci l idx) := by
  induction l generalizing idx with
  | nil => rfl
  | cons t rest ih =>
      simp [buildAnswers, getItem, ha, ok_bind, arrFirst, setItem, setJ, ih,
        projectAnswers, projectAnswer]

theorem buildOne_ok (uuid : Nat → String) (bfs pfs mfs afs : List (String × Json))
    (arest : List Json)
    (hp : getKey bfs "params" = some (Json.obj pfs))
    (hm : getKey bfs "metadata" = some (Json.obj mfs))
    (ha : getKey pfs "answers" = some (Json.arr (Json.obj afs :: arest)))
    (k : Nat) (q : QuestionRecord) :
    buildOne uuid (Json.obj bfs) k q =
      Except.ok (projectQuestion uuid (Json.obj bfs) k q) := by
  simp [buildOne, getItem, hp, hm, ok_bind, setItem,
    buildAnswers_ok pfs afs arest ha, projectQuestion, setJ, getJ, headJ, ha]

theorem buildLoop_ok (uuid : Nat → String) (bfs pfs mfs afs : List (String × Json))
    (arest : List Json)
    (hp : getKey bfs "params" = some (Json.obj pfs))
    (hm : getKey bfs "metadata" = some (Json.obj mfs))
    (ha : getKey pfs "answers" = some (Json.arr (Json.obj afs :: arest)))
    (mc : List QuestionRecord) (k : Nat) :
    buildLoop uuid (Json.obj bfs) k mc =
      Except.ok (buildPure uuid (Json.obj bfs) k mc) := by
  induction mc generalizing k with
  | nil => rfl
  | cons q rest ih =>
      simp [buildLoop, buildOne_ok uuid bfs pfs mfs afs arest hp hm ha, ok_bind,
        ih, buildPure]

/-- Unpack `templateWF` into the structural shape the rewriting lemmas
need. -/
theorem templateWF_elim (tc : Json) (h : templateWF tc = true) :
    ∃ tfs bfs pfs mfs afs brest arest,
      tc = Json.obj tfs ∧
      getKey tfs "questions" = some (Json.arr (Json.obj bfs :: brest)) ∧
      getKey bfs "params" = some (Json.obj pfs) ∧
      getKey bfs "metadata" = some (Json.obj mfs) ∧
      getKey pfs "answers" = some (Json.arr (Json.obj afs :: arest)) := by
  unfold templateWF at h
  split at h
  · split at h
    · split at h
      · split at h
        · rename_i tfs x3 bfs brest hq x2 x1 pfs mfs hp hm x0 afs arest ha
          exact ⟨tfs, bfs, pfs, mfs, afs, brest, arest, rfl, hq, hp, hm, ha⟩
        · exact absurd h (by simp)
      · exact absurd h (by simp)
    · exact absurd h (by simp)
  · exact absurd h (by simp)

/-! ## Shape of the projected values -/

theorem buildPure_length (uuid : Nat → String) (bq : Json)
    (mc : List QuestionRecord) (k : Nat) :
    (buildPure uuid bq k mc).length = mc.length := by
  induction mc generalizing k with
  | nil => rfl
  | cons q rest ih => simp [buildPure, ih]

theorem buildPure_get (uuid : Nat → String) (bq : Json)
    (mc : List QuestionRecord) (k j : Nat) (q : QuestionRecord)
    (hj : mc.get? j = some q) :
    (buildPure uuid bq k mc).get? j = some (projectQuestion uuid bq (k + j) q) := by
  induction mc generalizing k j with
  | nil => simp at hj
  | cons q0 rest ih =>
      cases j with
      | zero =>
          simp at hj
          subst hj
          simp [buildPure]
      | succ j0 =>
          have hj2 : rest.get? j0 = some q := hj
          have h := ih (k + 1) j0 hj2
          have harith : k + 1 + j0 = k + (j0 + 1) := by omega
          rw [harith] at h
          exact h

theorem projectAnswers_length (a0 : Json) (ci : Int) (l : List String) (idx : Nat) :
    (projectAnswers a0 ci l idx).length = l.length := by
  induction l generalizing idx with
  | nil => rfl
  | cons t rest ih => simp [projectAnswers, ih]

theorem projectAnswers_get (a0 : Json) (ci : Int) (l : List String) (idx j : Nat)
    (t : String) (hj : l.get? j = some t) :
    (projectAnswers a0 ci l idx).get? j = some (projectAnswer a0 ci (idx + j) t) := by
  induction l generalizing idx j with
  | nil => simp at hj
  | cons t0 rest ih =>
      cases j with
      | zero =>
          simp at hj
          subst hj
          simp [projectAnswers]
      | succ j0 =>
          have hj2 : rest.get? j0 = some t := hj
          have h := ih (idx + 1) j0 hj2
          have harith : idx + 1 + j0 = idx + (j0 + 1) := by omega
          rw [harith] at h
          exact h

/-- Field view of one rebuilt answer: text overwritten. -/
theorem projectAnswer_text (afs : List (String × Json)) (ci : Int) (idx : Nat)
    (t : String) :
    getJ (projectAnswer (Json.obj afs) ci idx t) "text" = Json.str t := by
  have hne : "text" ≠ "correct" := by decide
  simp [projectAnswer, setJ, getJ, getKey_setKey_other _ _ _ _ hne, getKey_setKey_self]

/-- Field view of one rebuilt answer: the `correct` flag is set exactly
when the 0-based position equals the record's correct index. -/
theorem projectAnswer_correct (afs : List (String × Json)) (ci : Int) (idx : Nat)
    (t : String) :
    getJ (projectAnswer (Json.obj afs) ci idx t) "correct" =
      Json.bool (decide ((idx : Int) = ci)) := by
  simp [projectAnswer, setJ, getJ, getKey_setKey_self]

/-- Frame of one rebuilt answer: every field other than `text` and
`correct` keeps the skeleton answer's value. -/
theorem projectAnswer_frame (afs : List (String × Json)) (ci : Int) (idx : Nat)
    (t : String) (k : String) (h1 : k ≠ "text") (h2 : k ≠ "correct") :
    getJ (projectAnswer (Json.obj afs) ci idx t) k = getJ (Json.obj afs) k := by
  simp [projectAnswer, setJ, getJ, getKey_setKey_other _ _ _ _ h2,
    getKey_setKey_other _ _ _ _ h1]

/-- Field view of one generated question: its `params.answers` is the
projected answers list built from the skeleton's first answer. -/
theorem projectQuestion_answers (uuid : Nat → String)
    (bfs pfs : List (String × Json)) (k : Nat) (q : QuestionRecord)
    (hp : getKey bfs "params" = some (Json.obj pfs)) :
    getJ (getJ (projectQuestion uuid (Json.obj bfs) k q) "params") "answers" =
      Json.arr (projectAnswers (headJ (getJ (Json.obj pfs) "answers"))
        (q.correct_index.getD 0) q.answers 0) := by
  have h1 : ("params" : String) ≠ "subContentId" := by decide
  have h2 : ("params" : String) ≠ "metadata" := by decide
  have h3 : ("answers" : String) ≠ "question" := by decide
  simp only [projectQuestion, setJ, getJ, hp]
  simp [getKey_setKey_other _ _ _ _ h1, getKey_setKey_other _ _ _ _ h2,
    getKey_setKey_self, getKey_setKey_other _ _ _ _ h3, getJ, hp]

/-- Field view of one generated question: its `params.question` is the
record's question text. -/
theorem projectQuestion_question (uuid : Nat → String)
    (bfs pfs : List (String × Json)) (k : Nat) (q : QuestionRecord)
    (hp : getKey bfs "params" = some (Json.obj pfs)) :
    getJ (getJ (projectQuestion uuid (Json.obj bfs) k q) "params") "question" =
      Json.str q.question := by
  have h1 : ("params" : String) ≠ "subContentId" := by decide
  have h2 : ("params" : String) ≠ "metadata" := by decide
  have h3 : ("question" : String) ≠ "answers" := by decide
  simp only [projectQuestion, setJ, getJ, hp]
  simp [getKey_setKey_other _ _ _ _ h1, getKey_setKey_other _ _ _ _ h2,
    getKey_setKey_self, getKey_setKey_other _ _ _ _ h3, getJ, hp]

/-- Field view of one generated question: both title-bearing metadata
fields carry the fixed Dutch label "Vraag {i}" with `i = k + 1` the
1-based position. -/
theorem projectQuestion_titles (uuid : Nat → String)
    (bfs mfs : List (String × Json)) (k : Nat) (q : QuestionRecord)
    (hm : getKey bfs "metadata" = some (Json.obj mfs)) :
    getJ (getJ (projectQuestion uuid (Json.obj bfs) k q) "metadata") "title" =
        Json.str ("Vraag " ++ toString (k + 1)) ∧
    getJ (getJ (projectQuestion uuid (Json.obj bfs) k q) "metadata") "extraTitle" =
        Json.str ("Vraag " ++ toString (k + 1)) := by
  have h1 : ("metadata" : String) ≠ "subContentId" := by decide
  have h2 : ("title" : String) ≠ "extraTitle" := by decide
  constructor
  · simp only [projectQuestion, setJ, getJ, hm]
    simp [getKey_setKey_other _ _ _ _ h1, getKey_setKey_self,
      getKey_setKey_other _ _ _ _ h2, getJ, hm]
  · simp only [projectQuestion, setJ, getJ, hm]
    simp [getKey_setKey_other _ _ _ _ h1, getKey_setKey_self, getJ, hm]

/-- Field view of one generated question: its identifier is the fresh
token of iteration `k`. -/
theorem projectQuestion_id (uuid : Nat → String) (bfs : List (String × Json))
    (k : Nat) (q : QuestionRecord) :
    getJ (projectQuestion uuid (Json.obj bfs) k q) "subContentId" =
      Json.str (uuid k) := by
  simp [projectQuestion, setJ, getJ, getKey_setKey_self]

/-- The identifiers of the generated questions, in order: the fresh
tokens `uuid k, uuid (k+1), …`, one per record. -/
theorem buildPure_ids (uuid : Nat → String) (bfs : List (String × Json))
    (mc : List QuestionRecord) (k : Nat) :
    (buildPure uuid (Json.obj bfs) k mc).map (fun q => getJ q "subContentId") =
      (List.range' k mc.length).map (fun t => Json.str (uuid t)) := by
  induction mc generalizing k with
  | nil => rfl
  | cons q rest ih =>
      simp [buildPure, List.range', projectQuestion_id, ih]

/-- Under a well-formed template, `build_questions_from_mc` succeeds and
returns exactly the pure projection of the records onto the skeleton. -/
theorem build_questions_ok (uuid : Nat → String) (mc : List QuestionRecord)
    (tc : Json) (h : templateWF tc = true) :
    build_questions_from_mc uuid mc tc =
      Except.ok (buildPure uuid (skelOf tc) 0 mc) := by
  obtain ⟨tfs, bfs, pfs, mfs, afs, brest, arest, htc, hq, hp, hm, ha⟩ :=
    templateWF_elim tc h
  subst htc
  have hskel : skelOf (Json.obj tfs) = Json.obj bfs := by
    simp [skelOf, getJ, hq, headJ]
  rw [hskel]
  simp [build_questions_from_mc, getItem, hq, ok_bind, arrFirst, hp,
    buildLoop_ok uuid bfs pfs mfs afs arest hp hm ha]

/-! ## Exact failure characterization of the merge -/

theorem buildAnswers_isErr (pfs : List (String × Json)) (ci : Int)
    (l : List String) (idx : Nat) :
    isErrB (buildAnswers (Json.obj pfs) ci l idx) =
      (!l.isEmpty && !answersOkP (Json.obj pfs)) := by
  cases l with
  | nil => rfl
  | cons t rest =>
      cases ha : getKey pfs "answers" with
      | none =>
          simp [buildAnswers, getItem, ha, error_bind, isErrB, answersOkP, getJ]
      | some av =>
          cases av with
          | arr al =>
              cases al with
              | nil =>
                  simp [buildAnswers, getItem, ha, ok_bind, arrFirst, error_bind,
                    isErrB, answersOkP, getJ]
              | cons a0 arest =>
                  cases a0 with
                  | obj afs =>
                      rw [buildAnswers_ok pfs afs arest ha ci (t :: rest) idx]
                      simp [isErrB, answersOkP, getJ, ha, isObjB]
                  | null =>
                      simp [buildAnswers, getItem, ha, ok_bind, arrFirst, setItem,
                        error_bind, isErrB, answersOkP, getJ, isObjB]
                  | bool b =>
                      simp [buildAnswers, getItem, ha, ok_bind, arrFirst, setItem,
                        error_bind, isErrB, answersOkP, getJ, isObjB]
                  | num n =>
                      simp [buildAnswers, getItem, ha, ok_bind, arrFirst, setItem,
                        error_bind, isErrB, answersOkP, getJ, isObjB]
                  | str s =>
                      simp [buildAnswers, getItem, ha, ok_bind, arrFirst, setItem,
                        error_bind, isErrB, answersOkP, getJ, isObjB]
                  | arr l2 =>
                      simp [buildAnswers, getItem, ha, ok_bind, arrFirst, setItem,
                        error_bind, isErrB, answersOkP, getJ, isObjB]
          | null => simp [buildAnswers, getItem, ha, ok_bind, arrFirst, error_bind,
              isErrB, answersOkP, getJ]
          | bool b => simp [buildAnswers, getItem, ha, ok_bind, arrFirst, error_bind,
              isErrB, answersOkP, getJ]
          | num n => simp [buildAnswers, getItem, ha, ok_bind, arrFirst, error_bind,
              isErrB, answersOkP, getJ]
          | str s => simp [buildAnswers, getItem, ha, ok_bind, arrFirst, error_bind,
              isErrB, answersOkP, getJ]
          | obj o2 => simp [buildAnswers, getItem, ha, ok_bind, arrFirst, error_bind,
              isErrB, answersOkP, getJ]

theorem buildOne_isErr (uuid : Nat → String) (bfs : List (String × Json))
    (pv : Json) (k : Nat) (q : QuestionRecord)
    (hp : getKey bfs "params" = some pv) :
    isErrB (buildOne uuid (Json.obj bfs) k q) =
      (!recordStepOk (Json.obj bfs) ||
       (!q.answers.isEmpty && !answersOkP pv)) := by
  have hgp : getJ (Json.obj bfs) "params" = pv := by simp [getJ, hp]
  cases pv with
  | obj pfs =>
      -- `params["question"] = …` succeeds; the next failure candidates are
      -- the answers loop and the metadata accesses.
      cases hba : buildAnswers (Json.obj pfs) (q.correct_index.getD 0) q.answers 0 with
      | error e =>
          have h1 := buildAnswers_isErr pfs (q.correct_index.getD 0) q.answers 0
          rw [hba] at h1
          simp [isErrB] at h1
          simp [buildOne, getItem, hp, ok_bind, setItem, hba, error_bind, isErrB,
            recordStepOk, hgp]
          simp [h1]
      | ok answers =>
          have h1 := buildAnswers_isErr pfs (q.correct_index.getD 0) q.answers 0
          rw [hba] at h1
          simp [isErrB] at h1
          cases hm : getKey bfs "metadata" with
          | none =>
              simp [buildOne, getItem, hp, hm, ok_bind, setItem, hba, error_bind,
                isErrB, recordStepOk, hgp, getJ, isObjB]
          | some mv =>
              have hgm : getJ (Json.obj bfs) "metadata" = mv := by simp [getJ, hm]
              cases mv with
              | obj mfs =>
                  simp [buildOne, getItem, hp, hm, ok_bind, setItem, hba, error_bind,
                    isErrB, recordStepOk, hgp, hgm, isObjB]
                  exact h1
              | null =>
                  simp [buildOne, getItem, hp, hm, ok_bind, setItem, hba, error_bind,
                    isErrB, recordStepOk, hgp, hgm, isObjB]
              | bool b =>
                  simp [buildOne, getItem, hp, hm, ok_bind, setItem, hba, error_bind,
                    isErrB, recordStepOk, hgp, hgm, isObjB]
              | num n =>
                  simp [buildOne, getItem, hp, hm, ok_bind, setItem, hba, error_bind,
                    isErrB, recordStepOk, hgp, hgm, isObjB]
              | str s =>
                  simp [buildOne, getItem, hp, hm, ok_bind, setItem, hba, error_bind,
                    isErrB, recordStepOk, hgp, hgm, isObjB]
              | arr l2 =>
                  simp [buildOne, getItem, hp, hm, ok_bind, setItem, hba, error_bind,
                    isErrB, recordStepOk, hgp, hgm, isObjB]
  | null => simp [buildOne, getItem, hp, ok_bind, setItem, error_bind, isErrB,
      recordStepOk, hgp, isObjB]
  | bool b => simp [buildOne, getItem, hp, ok_bind, setItem, error_bind, isErrB,
      recordStepOk, hgp, isObjB]
  | num n => simp [buildOne, getItem, hp, ok_bind, setItem, error_bind, isErrB,
      recordStepOk, hgp, isObjB]
  | str s => simp [buildOne, getItem, hp, ok_bind, setItem, error_bind, isErrB,
      recordStepOk, hgp, isObjB]
  | arr l2 => simp [buildOne, getItem, hp, ok_bind, setItem, error_bind, isErrB,
      recordStepOk, hgp, isObjB]

theorem buildLoop_isErr (uuid : Nat → String) (bfs : List (String × Json))
    (pv : Json) (hp : getKey bfs "params" = some pv)
    (mc : List QuestionRecord) (k : Nat) :
    isErrB (buildLoop uuid (Json.obj bfs) k mc) =
      ((!mc.isEmpty && !recordStepOk (Json.obj bfs)) ||
       (mc.any (fun q => !q.answers.isEmpty) && !answersOkP pv)) := by
  induction mc generalizing k with
  | nil => rfl
  | cons q rest ih =>
      have hcons : isErrB (buildLoop uuid (Json.obj bfs) k (q :: rest)) = true ↔
          (isErrB (buildOne uuid (Json.obj bfs) k q) = true ∨
           isErrB (buildLoop uuid (Json.obj bfs) (k + 1) rest) = true) := by
        cases hb1 : buildOne uuid (Json.obj bfs) k q with
        | error e => simp [buildLoop, hb1, error_bind, isErrB]
        | ok v =>
            cases hr2 : buildLoop uuid (Json.obj bfs) (k + 1) rest with
            | error e2 => simp [buildLoop, hb1, ok_bind, hr2, error_bind, isErrB]
            | ok l2 => simp [buildLoop, hb1, ok_bind, hr2, isErrB]
      rw [Bool.eq_iff_iff, hcons, buildOne_isErr uuid bfs pv k q hp, ih (k + 1)]
      simp only [Bool.or_eq_true, Bool.and_eq_true, Bool.not_eq_true,
        List.any_cons, List.isEmpty_cons, Bool.not_false, Bool.true_and]
      constructor
      · rintro ((h | ⟨h1, h2⟩) | (⟨h1, h2⟩ | ⟨h1, h2⟩))
        · exact Or.inl h
        · exact Or.inr ⟨Or.inl h1, h2⟩
        · exact Or.inl h2
        · exact Or.inr ⟨Or.inr h1, h2⟩
      · rintro (h | ⟨h1 | h1, h2⟩)
        · exact Or.inl (Or.inl h)
        · exact Or.inl (Or.inr ⟨h1, h2⟩)
        · exact Or.inr (Or.inr ⟨h1, h2⟩)

theorem qShapeOk_obj (tc : Json) (h : qShapeOk tc = true) :
    ∃ tfs, tc = Json.obj tfs := by
  cases tc with
  | obj tfs => exact ⟨tfs, rfl⟩
  | null => simp [qShapeOk] at h
  | bool b => simp [qShapeOk] at h
  | num n => simp [qShapeOk] at h
  | str s => simp [qShapeOk] at h
  | arr l => simp [qShapeOk] at h

/-- Function `build_questions_from_mc` raises exactly under `buildFails`. -/
theorem build_isErr (uuid : Nat → String) (mc : List QuestionRecord) (tc : Json) :
    isErrB (build_questions_from_mc uuid mc tc) = buildFails tc mc := by
  cases tc with
  | obj tfs =>
      cases hq : getKey tfs "questions" with
      | none =>
          simp [build_questions_from_mc, getItem, hq, error_bind, isErrB,
            buildFails, qShapeOk]
      | some qv =>
          cases qv with
          | arr ql =>
              cases ql with
              | nil =>
                  simp [build_questions_from_mc, getItem, hq, ok_bind, arrFirst,
                    error_bind, isErrB, buildFails, qShapeOk]
              | cons bq brest =>
                  have hskel : skelOf (Json.obj tfs) = bq := by
                    simp [skelOf, getJ, hq, headJ]
                  cases bq with
                  | obj bfs =>
                      cases hp : getKey bfs "params" with
                      | none =>
                          simp [build_questions_from_mc, getItem, hq, ok_bind,
                            arrFirst, hp, error_bind, isErrB, buildFails, qShapeOk,
                            hasKeyB]
                      | some pv =>
                          have hloop := buildLoop_isErr uuid bfs pv hp mc 0
                          simp [build_questions_from_mc, getItem, hq, ok_bind,
                            arrFirst, hp, hloop, buildFails, qShapeOk, hasKeyB,
                            hskel, getJ]
                  | null =>
                      simp [build_questions_from_mc, getItem, hq, ok_bind, arrFirst,
                        error_bind, isErrB, buildFails, qShapeOk, hasKeyB]
                  | bool b =>
                      simp [build_questions_from_mc, getItem, hq, ok_bind, arrFirst,
                        error_bind, isErrB, buildFails, qShapeOk, hasKeyB]
                  | num n =>
                      simp [build_questions_from_mc, getItem, hq, ok_bind, arrFirst,
                        error_bind, isErrB, buildFails, qShapeOk, hasKeyB]
                  | str s =>
                      simp [build_questions_from_mc, getItem, hq, ok_bind, arrFirst,
                        error_bind, isErrB, buildFails, qShapeOk, hasKeyB]
                  | arr l2 =>
                      simp [build_questions_from_mc, getItem, hq, ok_bind, arrFirst,
                        error_bind, isErrB, buildFails, qShapeOk, hasKeyB]
          | null =>
              simp [build_questions_from_mc, getItem, hq, ok_bind, arrFirst,
                error_bind, isErrB, buildFails, qShapeOk]
          | bool b =>
              simp [build_questions_from_mc, getItem, hq, ok_bind, arrFirst,
                error_bind, isErrB, buildFails, qShapeOk]
          | num n =>
              simp [build_questions_from_mc, getItem, hq, ok_bind, arrFirst,
                error_bind, isErrB, buildFails, qShapeOk]
          | str s =>
              simp [build_questions_from_mc, getItem, hq, ok_bind, arrFirst,
                error_bind, isErrB, buildFails, qShapeOk]
          | obj o2 =>
              simp [build_questions_from_mc, getItem, hq, ok_bind, arrFirst,
                error_bind, isErrB, buildFails, qShapeOk]
  | null => simp [build_questions_from_mc, getItem, error_bind, isErrB, buildFails, qShapeOk]
  | bool b => simp [build_questions_from_mc, getItem, error_bind, isErrB, buildFails, qShapeOk]
  | num n => simp [build_questions_from_mc, getItem, error_bind, isErrB, buildFails, qShapeOk]
  | str s => simp [build_questions_from_mc, getItem, error_bind, isErrB, buildFails, qShapeOk]
  | arr l => simp [build_questions_from_mc, getItem, error_bind, isErrB, buildFails, qShapeOk]

/-- Function `create_h5p_from_template` raises exactly under `mergeFails`. -/
theorem create_isErr (uuid : Nat → String) (template : List ZEntry)
    (mc : List QuestionRecord) :
    isErrB (create_h5p_from_template uuid template mc) = mergeFails template mc := by
  unfold create_h5p_from_template prepareContent mergedContent mergeFails zipRead
  cases hf : zipFind template cpath with
  | none => simp [error_bind, isErrB, Except.map]
  | some e =>
      cases hl : loads e.payload with
      | none => simp [ok_bind, error_bind, isErrB, Except.map, hl]
      | some tc =>
          cases hb : build_questions_from_mc uuid mc tc with
          | error eb =>
              have h : buildFails tc mc = true := by
                have h0 := (build_isErr uuid mc tc).symm
                rw [hb] at h0
                exact h0.trans rfl
              simp [ok_bind, hb, hl, error_bind, isErrB, Except.map, h]
          | ok qs =>
              have h : buildFails tc mc = false := by
                have h0 := (build_isErr uuid mc tc).symm
                rw [hb] at h0
                exact h0.trans rfl
              have hsh : qShapeOk tc = true := by
                by_contra hq
                have : buildFails tc mc = true := by
                  simp [buildFails, Bool.not_eq_true] at hq ⊢
                  simp [hq]
                rw [this] at h
                exact absurd h (by simp)
              obtain ⟨tfs, htc⟩ := qShapeOk_obj tc hsh
              subst htc
              simp [ok_bind, hb, hl, setItem, isErrB, Except.map, h]

/-- Under a well-formed template with a readable, parseable content
entry, `create_h5p_from_template` succeeds, the updated document is the
input document with only `questions` replaced by the projected questions,
and the output archive is the write-out of the input entries against the
serialized updated document. -/
theorem create_h5p_ok (uuid : Nat → String) (template : List ZEntry)
    (mc : List QuestionRecord) (s : String) (tc : Json)
    (hz : zipRead template cpath = Except.ok s)
    (hl : loads s = some tc)
    (hwf : templateWF tc = true) :
    mergedContent uuid template mc =
      Except.ok (setJ tc "questions"
        (Json.arr (buildPure uuid (skelOf tc) 0 mc))) ∧
    create_h5p_from_template uuid template mc =
      Except.ok (writeEntries template
        (dumpJson (setJ tc "questions"
          (Json.arr (buildPure uuid (skelOf tc) 0 mc))))) := by
  obtain ⟨tfs, bfs, pfs, mfs, afs, brest, arest, htc, hq, hp, hm, ha⟩ :=
    templateWF_elim tc hwf
  have hmc : mergedContent uuid template mc =
      Except.ok (setJ tc "questions"
        (Json.arr (buildPure uuid (skelOf tc) 0 mc))) := by
    unfold mergedContent
    rw [hz]
    subst htc
    simp [ok_bind, hl, build_questions_ok uuid mc (Json.obj tfs) hwf, setItem, setJ]
  refine ⟨hmc, ?_⟩
  unfold create_h5p_from_template prepareContent
  rw [hmc]
  rfl

mutual
theorem allocJson_bounds : ∀ (j : Json) (n : Nat),
    n ≤ (allocJson j n).2.2 ∧
    ∀ p ∈ (allocJson j n).2.1, n ≤ p.1 ∧ p.1 < (allocJson j n).2.2
  | Json.null, n => ⟨Nat.le_refl n, by simp [allocJson]⟩
  | Json.bool b, n => ⟨Nat.le_refl n, by simp [allocJson]⟩
  | Json.num m, n => ⟨Nat.le_refl n, by simp [allocJson]⟩
  | Json.str s, n => ⟨Nat.le_refl n, by simp [allocJson]⟩
  | Json.arr xs, n => by
      have h := allocList_bounds xs n
      constructor
      · show n ≤ (allocList xs n).2.2 + 1
        omega
      · intro p hp
        show n ≤ p.1 ∧ p.1 < (allocList xs n).2.2 + 1
        have hp2 : p ∈ (allocList xs n).2.1 ++ [((allocList xs n).2.2, HNode.list (allocList xs n).1)] := hp
        rcases List.mem_append.mp hp2 with h1 | h1
        · have := h.2 p h1
          omega
        · simp at h1
          subst h1
          simp
          omega
  | Json.obj fs, n => by
      have h := allocFields_bounds fs n
      constructor
      · show n ≤ (allocFields fs n).2.2 + 1
        omega
      · intro p hp
        show n ≤ p.1 ∧ p.1 < (allocFields fs n).2.2 + 1
        have hp2 : p ∈ (allocFields fs n).2.1 ++ [((allocFields fs n).2.2, HNode.dict (allocFields fs n).1)] := hp
        rcases List.mem_append.mp hp2 with h1 | h1
        · have := h.2 p h1
          omega
        · simp at h1
          subst h1
          simp
          omega

theorem allocList_bounds : ∀ (xs : List Json) (n : Nat),
    n ≤ (allocList xs n).2.2 ∧
    ∀ p ∈ (allocList xs n).2.1, n ≤ p.1 ∧ p.1 < (allocList xs n).2.2
  | [], n => ⟨Nat.le_refl n, by simp [allocList]⟩
  | x :: xs, n => by
      have h1 := allocJson_bounds x n
      have h2 := allocList_bounds xs (allocJson x n).2.2
      constructor
      · show n ≤ (allocList xs (allocJson x n).2.2).2.2
        omega
      · intro p hp
        show n ≤ p.1 ∧ p.1 < (allocList xs (allocJson x n).2.2).2.2
        have hp2 : p ∈ (allocJson x n).2.1 ++ (allocList xs (allocJson x n).2.2).2.1 := hp
        rcases List.mem_append.mp hp2 with hk | hk
        · have := h1.2 p hk
          omega
        · have := h2.2 p hk
          omega

theorem allocFields_bounds : ∀ (fs : List (String × Json)) (n : Nat),
    n ≤ (allocFields fs n).2.2 ∧
    ∀ p ∈ (allocFields fs n).2.1, n ≤ p.1 ∧ p.1 < (allocFields fs n).2.2
  | [], n => ⟨Nat.le_refl n, by simp [allocFields]⟩
  | kv :: fs, n => by
      have h1 := allocJson_bounds kv.2 n
      have h2 := allocFields_bounds fs (allocJson kv.2 n).2.2
      constructor
      · show n ≤ (allocFields fs (allocJson kv.2 n).2.2).2.2
        omega
      · intro p hp
        show n ≤ p.1 ∧ p.1 < (allocFields fs (allocJson kv.2 n).2.2).2.2
        have hp2 : p ∈ (allocJson kv.2 n).2.1 ++ (allocFields fs (allocJson kv.2 n).2.2).2.1 := hp
        rcases List.mem_append.mp hp2 with hk | hk
        · have := h1.2 p hk
          omega
        · have := h2.2 p hk
          omega
end

theorem allocSeq_bounds : ∀ (qs : List Json) (n : Nat),
    n ≤ (allocSeq qs n).2 ∧
    ∀ fr ∈ (allocSeq qs n).1, ∀ a ∈ fragDom fr, n ≤ a ∧ a < (allocSeq qs n).2
  | [], n => ⟨Nat.le_refl n, by simp [allocSeq]⟩
  | q :: qs, n => by
      have h1 := allocJson_bounds q n
      have h2 := allocSeq_bounds qs (allocJson q n).2.2
      constructor
      · show n ≤ (allocSeq qs (allocJson q n).2.2).2
        omega
      · intro fr hfr a ha
        show n ≤ a ∧ a < (allocSeq qs (allocJson q n).2.2).2
        have hfr2 : fr ∈ ((allocJson q n).1, (allocJson q n).2.1) ::
            (allocSeq qs (allocJson q n).2.2).1 := hfr
        rcases List.mem_cons.mp hfr2 with hk | hk
        · subst hk
          obtain ⟨p, hp, hpa⟩ := List.mem_map.mp ha
          have := h1.2 p hp
          omega
        · have := h2.2 fr hk a ha
          omega

/-- Fragments produced earlier in the sequence use strictly smaller
addresses than fragments produced later: no two fragments share a cell. -/
theorem allocSeq_sep : ∀ (qs : List Json) (n i j : Nat)
    (fri frj : HVal × Heap), i < j →
    (allocSeq qs n).1.get? i = some fri →
    (allocSeq qs n).1.get? j = some frj →
    ∀ a ∈ fragDom fri, ∀ b ∈ fragDom frj, a < b
  | [], n, i, j, fri, frj, hij, hi, hj => by simp [allocSeq] at hi
  | q :: qs, n, i, j, fri, frj, hij, hi, hj => by
      cases i with
      | zero =>
          cases j with
          | zero => omega
          | succ j0 =>
              have hi2 : fri = ((allocJson q n).1, (allocJson q n).2.1) := by
                have : (allocSeq (q :: qs) n).1.get? 0 =
                    some ((allocJson q n).1, (allocJson q n).2.1) := rfl
                rw [this] at hi
                exact (Option.some.injEq _ _ ▸ hi).symm
              have hj2 : (allocSeq qs (allocJson q n).2.2).1.get? j0 = some frj := hj
              intro a ha b hb
              subst hi2
              obtain ⟨p, hp, hpa⟩ := List.mem_map.mp ha
              have hlt := (allocJson_bounds q n).2 p hp
              have hge := (allocSeq_bounds qs (allocJson q n).2.2).2 frj
                (List.get?_mem hj2) b hb
              omega
      | succ i0 =>
          cases j with
          | zero => omega
          | succ j0 =>
              have hi2 : (allocSeq qs (allocJson q n).2.2).1.get? i0 = some fri := hi
              have hj2 : (allocSeq qs (allocJson q n).2.2).1.get? j0 = some frj := hj
              exact allocSeq_sep qs (allocJson q n).2.2 i0 j0 fri frj
                (by omega) hi2 hj2

theorem hlookup_hset_ne (h : Heap) (a b : Nat) (nd : HNode) (hne : a ≠ b) :
    hlookup (hset h a nd) b = hlookup h b := by
  induction h with
  | nil => rfl
  | cons p rest ih =>
      obtain ⟨pa, pnd⟩ := p
      by_cases hpa : pa = a
      · simp [hset, hpa, hlookup, hne, ih]
      · simp [hset, hpa, hlookup, ih]

theorem uuidW_injective : Function.Injective uuidW := by
  intro a b h
  have h2 : (uuidW a).length = (uuidW b).length := by rw [h]
  simpa [uuidW, String.length] using h2

/-! ## Claims -/

/-- C5 (amended): the merge raises exactly when the archive has no
content-description entry; the content document does not parse; it has
no `questions` list; the `questions` sequence is empty; the first
question is not a dict bearing a `params` key — line 89 reads
`base_q["params"]` before the record loop, so this fails even for zero
records (`qShapeOk`); or, once at least one record is merged, the first
question's `params` or `metadata` values are not dicts, a missing
`metadata` key included (`recordStepOk`); or, once some record has at
least one answer, `params.answers` is not a nonempty list whose first
entry is a dict (`answersOkP`).  The failures are plain `KeyError`/
`IndexError`/`TypeError`/`JSONDecodeError` values, not a distinct
`TemplateFormatError` type, which the source never defines. -/
theorem claim_C5_merge_failure_characterization (uuid : Nat → String)
    (template : List ZEntry) (mc : List QuestionRecord) :
    isErrB (create_h5p_from_template uuid template mc) = mergeFails template mc :=
  create_isErr uuid template mc

/-- C5 counterexample: an archive whose content entry is present, parses,
and has a nonempty `questions` list — so none of the claim's three
conditions holds — on which the merge nevertheless fails (with a
`KeyError` on the skeleton's missing `params`), already for zero
records. -/
theorem claim_C5_counterexample :
    (zipFind badSkelArchive cpath).isSome = true ∧
    loads (dumpJson badSkelContent) = some badSkelContent ∧
    getJ badSkelContent "questions" = Json.arr [Json.obj []] ∧
    create_h5p_from_template uuidW badSkelArchive [] =
      Except.error (PyError.keyError "params") :=
  ⟨rfl, rfl, rfl, rfl⟩

theorem rawFind_spec (l : List RawEntry) (nm : String) (e : RawEntry)
    (h : rawFind l nm = some e) : e ∈ l ∧ e.name = nm := by
  unfold rawFind at h
  have hmem := List.mem_of_getLast?_eq_some h
  have h2 := List.mem_filter.mp hmem
  exact ⟨h2.1, by simpa using h2.2⟩

theorem allReadable_data (l : List RawEntry) (hall : allReadable l = true)
    (e : RawEntry) (he : e ∈ l) : ∃ d, e.data = Except.ok d := by
  unfold allReadable at hall
  have h := List.all_eq_true.mp hall e he
  cases hd : e.data with
  | ok d => exact ⟨d, rfl⟩
  | error err =>
      rw [hd] at h
      simp at h

theorem rawRead_of_allReadable (l : List RawEntry) (hall : allReadable l = true)
    (e : RawEntry) (hmem : e ∈ l) : ∃ d, rawRead l e.name = Except.ok d := by
  have hne : l.filter (fun x => x.name = e.name) ≠ [] := by
    intro hnil
    have hin : e ∈ l.filter (fun x => x.name = e.name) :=
      List.mem_filter.mpr ⟨hmem, by simp⟩
    rw [hnil] at hin
    simp at hin
  have hsome : ((l.filter (fun x => x.name = e.name)).getLast?).isSome =
      true := List.getLast?_isSome.mpr hne
  obtain ⟨e2, he2⟩ := Option.isSome_iff_exists.mp hsome
  have he2mem : e2 ∈ l := (rawFind_spec l e.name e2 he2).1
  obtain ⟨d, hd⟩ := allReadable_data l hall e2 he2mem
  refine ⟨d, ?_⟩
  unfold rawRead rawFind
  rw [he2]
  exact hd

/-- The write loop writes exactly the outputs of the longest
successfully-read item prefix, and reports the first read error. -/
theorem writeRun_spec (all : List RawEntry) (nb : String)
    (entries : List RawEntry) (written : List ZEntry) :
    writeRun all nb entries written =
      (written ++ okPrefixOut all nb entries, firstReadErr all entries) := by
  induction entries generalizing written with
  | nil => simp [writeRun, okPrefixOut, firstReadErr]
  | cons e rest ih =>
      cases hr : rawRead all e.name with
      | error err => simp [writeRun, okPrefixOut, firstReadErr, hr]
      | ok d => simp [writeRun, okPrefixOut, firstReadErr, hr, ih]

theorem okPrefixOut_length (all : List RawEntry) (nb : String) :
    ∀ entries : List RawEntry,
      (okPrefixOut all nb entries).length ≤ entries.length
  | [] => Nat.le_refl 0
  | e :: rest => by
      cases hr : rawRead all e.name with
      | error err => simp [okPrefixOut, hr]
      | ok d =>
          simp only [okPrefixOut, hr, List.length_cons]
          exact Nat.succ_le_succ (okPrefixOut_length all nb rest)

/-- The written entries are the corresponding prefix of the full intended
output. -/
theorem okPrefixOut_take (all : List RawEntry) (nb : String) :
    ∀ entries : List RawEntry,
      okPrefixOut all nb entries =
        (entries.map (outEntry all nb)).take (okPrefixOut all nb entries).length
  | [] => rfl
  | e :: rest => by
      cases hr : rawRead all e.name with
      | error err => simp [okPrefixOut, hr]
      | ok d =>
          have hhead : (⟨e.name, if e.name = cpath then nb else d⟩ : ZEntry) =
              outEntry all nb e := by
            simp [outEntry, readD, hr]
          simp only [okPrefixOut, hr, List.map_cons, List.length_cons,
            List.take_succ_cons, hhead]
          exact congrArg (fun l => outEntry all nb e :: l)
            (okPrefixOut_take all nb rest)

/-- Over a fully readable archive the loop reads every item
successfully and produces the full output. -/
theorem okPrefixOut_all (all : List RawEntry) (nb : String)
    (hall : allReadable all = true) :
    ∀ entries : List RawEntry, (∀ e ∈ entries, e ∈ all) →
      okPrefixOut all nb entries = entries.map (outEntry all nb) ∧
      firstReadErr all entries = none
  | [], _ => ⟨rfl, rfl⟩
  | e :: rest, hsub => by
      obtain ⟨d, hd⟩ := rawRead_of_allReadable all hall e
        (hsub e (List.mem_cons_self e rest))
      have hrest := okPrefixOut_all all nb hall rest
        (fun x hx => hsub x (List.mem_cons_of_mem e hx))
      have hhead : (⟨e.name, if e.name = cpath then nb else d⟩ : ZEntry) =
          outEntry all nb e := by
        simp [outEntry, readD, hd]
      constructor
      · simp only [okPrefixOut, hd, List.map_cons, hrest.1, hhead]
      · simp [firstReadErr, hd, hrest.2]

theorem zipFind_map_toZEntry (all : List RawEntry) (nm : String) :
    zipFind (all.map toZEntry) nm = (rawFind all nm).map toZEntry := by
  unfold zipFind rawFind
  rw [List.filter_map, List.getLast?_map]
  rfl

/-- Forgetting the physical layer of a fully readable archive and running
the pure write loop gives exactly the physical loop's full output. -/
theorem writeEntries_toZEntry (all : List RawEntry) (nb : String)
    (hall : allReadable all = true) :
    writeEntries (all.map toZEntry) nb = all.map (outEntry all nb) := by
  unfold writeEntries
  rw [List.map_map]
  apply List.map_congr_left
  intro e he
  show (⟨e.name, if e.name = cpath then nb
    else match zipFind (all.map toZEntry) e.name with
      | some z => z.payload
      | none => ""⟩ : ZEntry) = outEntry all nb e
  unfold outEntry
  by_cases hc : e.name = cpath
  · simp [hc]
  · simp only [if_neg hc]
    rw [zipFind_map_toZEntry]
    obtain ⟨d, hd⟩ := rawRead_of_allReadable all hall e he
    cases hrf : rawFind all e.name with
    | none =>
        unfold rawRead at hd
        rw [hrf] at hd
        simp at hd
    | some e2 =>
        have he2mem : e2 ∈ all := (rawFind_spec all e.name e2 hrf).1
        obtain ⟨d2, hd2⟩ := allReadable_data all hall e2 he2mem
        have hreadD : readD all e.name = d2 := by
          simp [readD, rawRead, hrf, hd2]
        rw [hreadD]
        simp [toZEntry, hd2]

/-- C6 (amended): every exception raised during the preparation phase —
archive reading, parsing, question construction, serialization: the
steps the source performs before line 144 opens the output file — leaves
nothing at the output location; once the write phase has begun, a merge
over a fully readable archive completes with the full output archive,
and in every case the output location holds exactly the prefix of
entries written so far (the full archive when nothing failed).  The
counterexample shows the clause the original claim added about archive
writing is false: a lazily-detected corrupt entry read leaves a partial
archive visible. -/
theorem claim_C6_output_states (uuid : Nat → String)
    (template : List RawEntry) (mc : List QuestionRecord) :
    (∀ e, prepareRun uuid template mc = Except.error e →
      createRun uuid template mc = (none, some e)) ∧
    (∀ nb, prepareRun uuid template mc = Except.ok nb →
      (allReadable template = true →
        createRun uuid template mc =
          (some (writeEntries (template.map toZEntry) nb), none)) ∧
      (∀ w, (createRun uuid template mc).1 = some w →
        w.length ≤ template.length ∧
        w = (template.map (outEntry template nb)).take w.length)) := by
  constructor
  · intro e h
    unfold createRun
    rw [h]
  · intro nb hnb
    constructor
    · intro hall
      unfold createRun
      rw [hnb]
      have hok := okPrefixOut_all template nb hall template (fun e he => he)
      simp only [writeRun_spec template nb template [], List.nil_append,
        hok.1, hok.2, writeEntries_toZEntry template nb hall]
    · intro w hw
      unfold createRun at hw
      rw [hnb] at hw
      simp only [writeRun_spec template nb template [], List.nil_append] at hw
      have hw2 : w = okPrefixOut template nb template := by
        have := Option.some.inj hw
        exact this.symm
      subst hw2
      constructor
      · exact okPrefixOut_length template nb template
      · exact okPrefixOut_take template nb template

theorem claim_C6_witness :
    createRun uuidW [] [] = (none, some (PyError.keyError cpath)) ∧
    createRun uuidW wfRawArchive [] =
      (some (writeEntries (wfRawArchive.map toZEntry)
        (dumpJson (setJ wfContent "questions" (Json.arr [])))), none) := by
  constructor
  · exact (claim_C6_output_states uuidW [] []).1 (PyError.keyError cpath) rfl
  · exact ((claim_C6_output_states uuidW wfRawArchive []).2
      (dumpJson (setJ wfContent "questions" (Json.arr []))) rfl).1 (by decide)

/-- C6 counterexample: an archive whose content entry reads fine but
whose asset entry is corrupt — its CRC check fails only when the data is
first read, inside the write loop, after the output file was created.
The merge raises `BadZipFile` during archive writing, and the output
location holds a partially-written archive (one entry of two) visible to
the caller. -/
theorem claim_C6_counterexample :
    (createRun uuidW corruptArchive []).2 = some PyError.badZipFile ∧
    (createRun uuidW corruptArchive []).1 =
      some [⟨cpath, dumpJson (setJ wfContent "questions" (Json.arr []))⟩] ∧
    corruptArchive.length = 2 ∧
    ((createRun uuidW corruptArchive []).1.getD []).length = 1 :=
  ⟨rfl, rfl, rfl, rfl⟩

/-- C8 (amended): the extractor adapter fails — with `RuntimeError` —
exactly when the service response is not parseable JSON (and with
`AttributeError` when the parsed document is not a dict); on a parsed
dict it returns the `questions` value unchanged, whatever its shape, with
a missing `questions` key yielding the empty list.  It performs no schema
validation of the question records. -/
theorem claim_C8_adapter_behaviour (raw : String) :
    (loads raw = none →
      clean_and_parse_questions raw = Except.error PyError.runtimeError) ∧
    (∀ fs, loads raw = some (Json.obj fs) →
      clean_and_parse_questions raw =
        Except.ok ((getKey fs "questions").getD (Json.arr []))) ∧
    (∀ d, loads raw = some d → isObjB d = false →
      clean_and_parse_questions raw = Except.error PyError.attributeError) := by
  unfold clean_and_parse_questions dictGet
  cases hl : loads raw with
  | none =>
      refine ⟨fun _ => rfl, fun fs h => ?_, fun d h _ => ?_⟩
      · exact absurd h (by simp)
      · exact absurd h (by simp)
  | some d =>
      refine ⟨fun h => ?_, fun fs h => ?_, fun d2 h hobj => ?_⟩
      · exact absurd h (by simp)
      · injection h with h2
        subst h2
        rfl
      · have h3 : d = d2 := Option.some.inj h
        subst h3
        cases d with
        | obj fs => simp [isObjB] at hobj
        | null => rfl
        | bool b => rfl
        | num n => rfl
        | str s => rfl
        | arr l => rfl

theorem claim_C8_witness :
    clean_and_parse_questions "not json" = Except.error PyError.runtimeError ∧
    clean_and_parse_questions (dumpJson (Json.obj [])) = Except.ok (Json.arr []) ∧
    clean_and_parse_questions (dumpJson (Json.arr [])) =
      Except.error PyError.attributeError := by
  refine ⟨?_, ?_, ?_⟩
  · exact (claim_C8_adapter_behaviour "not json").1 rfl
  · exact (claim_C8_adapter_behaviour (dumpJson (Json.obj []))).2.1 [] rfl
  · exact (claim_C8_adapter_behaviour (dumpJson (Json.arr []))).2.2 (Json.arr []) rfl rfl

/-- C8 counterexample: a response that is valid JSON but violates the
required schema (`questions` bound to the number 5, not an array of
records) is returned as-is instead of producing a typed extraction
failure — the adapter validates nothing beyond parseability. -/
theorem claim_C8_counterexample :
    clean_and_parse_questions (dumpJson (Json.obj [("questions", Json.num 5)])) =
      Except.ok (Json.num 5) := rfl

theorem zipFind_of_nodup (l : List ZEntry) (hnd : (l.map ZEntry.name).Nodup)
    (i : Nat) (e : ZEntry) (h : l.get? i = some e) :
    zipFind l e.name = some e := by
  induction l generalizing i with
  | nil => simp at h
  | cons a rest ih =>
      simp only [List.map_cons, List.nodup_cons] at hnd
      obtain ⟨hna, hrest⟩ := hnd
      cases i with
      | zero =>
          have he : a = e := by
            have h0 : some a = some e := h
            exact Option.some.inj h0
          subst he
          have hf : rest.filter (fun x => x.name = a.name) = [] := by
            rw [List.filter_eq_nil_iff]
            intro x hx
            simp only [decide_eq_true_eq]
            intro hEq
            exact hna (hEq ▸ List.mem_map_of_mem ZEntry.name hx)
          simp [zipFind, List.filter_cons, hf]
      | succ i0 =>
          have h2 : rest.get? i0 = some e := h
          have hmem : e ∈ rest := List.get?_mem h2
          have hne : ¬(a.name = e.name) := by
            intro hEq
            exact hna (hEq ▸ List.mem_map_of_mem ZEntry.name hmem)
          have hstep := ih hrest i0 h2
          unfold zipFind at hstep ⊢
          simp only [List.filter_cons, decide_eq_true_eq]
          rw [if_neg hne]
          exact hstep

/-- C2 (amended): for an input archive whose entry names are pairwise
distinct, a successful merge writes every entry in its original order and
under its original name, with a payload byte-for-byte equal to the input
entry's, except the content-description entry, whose payload is the
serialized updated document.  (The distinct-names hypothesis is forced by
the counterexample: the write loop re-reads each payload *by name*, so a
name occurring twice receives the last occurrence's payload in both
positions.) -/
theorem claim_C2_archive_frame (uuid : Nat → String) (template : List ZEntry)
    (mc : List QuestionRecord) (out : List ZEntry) (nb : String)
    (hnd : (template.map ZEntry.name).Nodup)
    (hok : create_h5p_from_template uuid template mc = Except.ok out)
    (hnb : prepareContent uuid template mc = Except.ok nb) :
    out.map ZEntry.name = template.map ZEntry.name ∧
    (∀ i ei eo, template.get? i = some ei → out.get? i = some eo →
      (ei.name ≠ cpath → eo.payload = ei.payload) ∧
      (ei.name = cpath → eo.payload = nb)) := by
  have hout : out = writeEntries template nb := by
    unfold create_h5p_from_template at hok
    rw [hnb] at hok
    simp [ok_bind] at hok
    exact hok.symm
  subst hout
  constructor
  · unfold writeEntries
    rw [List.map_map]
    rfl
  · intro i ei eo hi ho
    have ho2 : (writeEntries template nb).get? i =
        some ⟨ei.name, if ei.name = cpath then nb
          else match zipFind template ei.name with
            | some e => e.payload
            | none => ""⟩ := by
      unfold writeEntries
      rw [List.get?_map, hi]
      rfl
    rw [ho2] at ho
    have heo := Option.some.inj ho
    constructor
    · intro hne
      rw [← heo]
      simp only [if_neg hne]
      rw [zipFind_of_nodup template hnd i ei hi]
    · intro hEq
      rw [← heo]
      simp only [if_pos hEq]

/-- C2 counterexample: on an archive with two entries both named
"a.bin" (payloads "old" and "new"), the merge succeeds and preserves
names and order, but the output's first entry carries payload "new": a
non-content entry whose output payload differs byte-for-byte from the
corresponding input entry's payload. -/
theorem claim_C2_counterexample :
    isErrB (create_h5p_from_template uuidW dupArchive []) = false ∧
    ((create_h5p_from_template uuidW dupArchive []).toOption.getD []).map ZEntry.name
      = dupArchive.map ZEntry.name ∧
    (dupArchive.get? 0).map ZEntry.name = some "a.bin" ∧
    ¬("a.bin" = cpath) ∧
    (dupArchive.get? 0).map ZEntry.payload = some "old" ∧
    (((create_h5p_from_template uuidW dupArchive []).toOption.getD []).get? 0).map
        ZEntry.payload = some "new" ∧
    ¬("old" = "new") :=
  ⟨rfl, rfl, rfl, by decide, rfl, rfl, by decide⟩

theorem claim_C2_witness :
    (writeEntries wfArchive (dumpJson (setJ wfContent "questions"
        (Json.arr [])))).map ZEntry.name = wfArchive.map ZEntry.name ∧
    ZEntry.payload ⟨"images/p.png", "PNG"⟩ = ZEntry.payload ⟨"images/p.png", "PNG"⟩ ∧
    ZEntry.payload ⟨cpath, dumpJson (setJ wfContent "questions" (Json.arr []))⟩ =
      dumpJson (setJ wfContent "questions" (Json.arr [])) := by
  have h := claim_C2_archive_frame uuidW wfArchive []
    (writeEntries wfArchive (dumpJson (setJ wfContent "questions" (Json.arr []))))
    (dumpJson (setJ wfContent "questions" (Json.arr [])))
    (by decide) rfl rfl
  refine ⟨h.1, ?_, ?_⟩
  · exact (h.2 2 ⟨"images/p.png", "PNG"⟩ ⟨"images/p.png", "PNG"⟩ rfl rfl).1 (by decide)
  · exact (h.2 1 ⟨cpath, dumpJson wfContent⟩
      ⟨cpath, dumpJson (setJ wfContent "questions" (Json.arr []))⟩ rfl rfl).2 rfl

/-- C9 (amended): both title-bearing metadata fields of the generated
question at 1-based position `i = j + 1` are set to the fixed label
"Vraag {i}" — a single display convention independent of the target
language, but the fixed word is the Dutch "Vraag", not "Question". -/
theorem claim_C9_titles (uuid : Nat → String) (tc : Json)
    (mc : List QuestionRecord) (j : Nat) (q : QuestionRecord)
    (hwf : templateWF tc = true) (hq : mc.get? j = some q) :
    build_questions_from_mc uuid mc tc =
      Except.ok (buildPure uuid (skelOf tc) 0 mc) ∧
    ((buildPure uuid (skelOf tc) 0 mc).get? j).map
        (fun qq => getJ (getJ qq "metadata") "title") =
      some (Json.str ("Vraag " ++ toString (j + 1))) ∧
    ((buildPure uuid (skelOf tc) 0 mc).get? j).map
        (fun qq => getJ (getJ qq "metadata") "extraTitle") =
      some (Json.str ("Vraag " ++ toString (j + 1))) := by
  obtain ⟨tfs, bfs, pfs, mfs, afs, brest, arest, htc, hqk, hp, hm, ha⟩ :=
    templateWF_elim tc hwf
  have hskel : skelOf tc = Json.obj bfs := by
    subst htc
    simp [skelOf, getJ, hqk, headJ]
  refine ⟨build_questions_ok uuid mc tc hwf, ?_, ?_⟩
  · rw [hskel, buildPure_get uuid (Json.obj bfs) mc 0 j q hq]
    simp only [Option.map_some', Nat.zero_add]
    rw [(projectQuestion_titles uuid bfs mfs j q hm).1]
  · rw [hskel, buildPure_get uuid (Json.obj bfs) mc 0 j q hq]
    simp only [Option.map_some', Nat.zero_add]
    rw [(projectQuestion_titles uuid bfs mfs j q hm).2]

theorem claim_C9_witness :
    ((buildPure uuidW (skelOf wfContent) 0 [recABCD]).get? 0).map
        (fun qq => getJ (getJ qq "metadata") "title") =
      some (Json.str "Vraag 1") ∧
    ((buildPure uuidW (skelOf wfContent) 0 [recABCD]).get? 0).map
        (fun qq => getJ (getJ qq "metadata") "extraTitle") =
      some (Json.str "Vraag 1") := by
  have h := claim_C9_titles uuidW wfContent [recABCD] 0 recABCD rfl rfl
  exact ⟨h.2.1, h.2.2⟩

/-- C9 counterexample: the first generated question's `metadata.title` is
the Dutch "Vraag 1", which is not the label "Question 1" the claim
names. -/
theorem claim_C9_counterexample :
    (match build_questions_from_mc uuidW [recNoIdx] wfContent with
     | Except.ok (qq :: _) => getJ (getJ qq "metadata") "title"
     | _ => Json.null) = Json.str "Vraag 1" ∧
    ¬(Json.str "Vraag 1" = Json.str "Question 1") := by
  refine ⟨rfl, ?_⟩
  intro h
  injection h with h2
  exact absurd h2 (by decide)

/-- C3: for a record with `correct_index` present, the generated
question's answers sequence has exactly as many entries as the record's
answers, in the record's order; each entry is the skeleton's first answer
with its `text` set to the record's answer text and its `correct` flag
true iff the answer's 0-based position equals `correct_index`.  Any
answer count (3, 4, 5, …) is handled without error. -/
theorem claim_C3_answers_projection (uuid : Nat → String) (tc : Json)
    (mc : List QuestionRecord) (j : Nat) (r : QuestionRecord) (ci : Int)
    (hwf : templateWF tc = true)
    (hr : mc.get? j = some r)
    (hci : r.correct_index = some ci) :
    build_questions_from_mc uuid mc tc =
      Except.ok (buildPure uuid (skelOf tc) 0 mc) ∧
    ((buildPure uuid (skelOf tc) 0 mc).get? j).map
        (fun qq => getJ (getJ qq "params") "answers") =
      some (Json.arr (projectAnswers (skelAnswerTemplate tc) ci r.answers 0)) ∧
    (projectAnswers (skelAnswerTemplate tc) ci r.answers 0).length =
      r.answers.length ∧
    (∀ jj t, r.answers.get? jj = some t →
      (projectAnswers (skelAnswerTemplate tc) ci r.answers 0).get? jj =
        some (projectAnswer (skelAnswerTemplate tc) ci jj t) ∧
      getJ (projectAnswer (skelAnswerTemplate tc) ci jj t) "text" = Json.str t ∧
      getJ (projectAnswer (skelAnswerTemplate tc) ci jj t) "correct" =
        Json.bool (decide ((jj : Int) = ci))) := by
  obtain ⟨tfs, bfs, pfs, mfs, afs, brest, arest, htc, hqk, hp, hm, ha⟩ :=
    templateWF_elim tc hwf
  have hskel : skelOf tc = Json.obj bfs := by
    subst htc
    simp [skelOf, getJ, hqk, headJ]
  have hat : skelAnswerTemplate tc = Json.obj afs := by
    rw [skelAnswerTemplate, hskel]
    simp [getJ, hp, ha, headJ]
  refine ⟨build_questions_ok uuid mc tc hwf, ?_, projectAnswers_length _ _ _ _,
    fun jj t ht => ⟨?_, ?_, ?_⟩⟩
  · rw [hskel, buildPure_get uuid (Json.obj bfs) mc 0 j r hr]
    simp only [Option.map_some', Nat.zero_add]
    rw [projectQuestion_answers uuid bfs pfs j r hp, hci]
    rw [hat]
    simp [getJ, ha, headJ, Option.getD]
  · have hg := projectAnswers_get (skelAnswerTemplate tc) ci r.answers 0 jj t ht
    rw [Nat.zero_add] at hg
    exact hg
  · rw [hat]
    exact projectAnswer_text afs ci jj t
  · rw [hat]
    exact projectAnswer_correct afs ci jj t

theorem claim_C3_witness :
    (projectAnswers (skelAnswerTemplate wfContent) 2 ["A", "B", "C", "D"] 0).length
      = 4 ∧
    (projectAnswers (skelAnswerTemplate wfContent) 2 recABCD.answers 0).get? 2 =
      some (projectAnswer (skelAnswerTemplate wfContent) 2 2 "C") ∧
    getJ (projectAnswer (skelAnswerTemplate wfContent) 2 2 "C") "correct" =
      Json.bool true ∧
    getJ (projectAnswer (skelAnswerTemplate wfContent) 2 0 "A") "correct" =
      Json.bool false ∧
    getJ (projectAnswer (skelAnswerTemplate wfContent) 2 1 "B") "correct" =
      Json.bool false ∧
    getJ (projectAnswer (skelAnswerTemplate wfContent) 2 3 "D") "correct" =
      Json.bool false ∧
    getJ (projectAnswer (skelAnswerTemplate wfContent) 2 2 "C") "text" =
      Json.str "C" := by
  have h := claim_C3_answers_projection uuidW wfContent [recABCD] 0 recABCD 2
    rfl rfl rfl
  have h2 := h.2.2.2 2 "C" rfl
  have h0 := h.2.2.2 0 "A" rfl
  have h1 := h.2.2.2 1 "B" rfl
  have h3 := h.2.2.2 3 "D" rfl
  exact ⟨h.2.2.1, h2.1, h2.2.2, h0.2.2, h1.2.2, h3.2.2, h2.2.1⟩

/-- C7: a record without `correct_index` is merged without an exception,
exactly as if `correct_index` were 0 — the first answer is flagged
correct and every other answer false — and the UI preview flags the
record (its retrieved index defaults to −1, which triggers the
warning). -/
theorem claim_C7_missing_correct_index (uuid : Nat → String) (tc : Json)
    (mc : List QuestionRecord) (j : Nat) (q : QuestionRecord)
    (hwf : templateWF tc = true)
    (hq : mc.get? j = some q)
    (habsent : q.correct_index = none) :
    isErrB (build_questions_from_mc uuid mc tc) = false ∧
    (buildPure uuid (skelOf tc) 0 mc).get? j =
      some (projectQuestion uuid (skelOf tc) j
        { question := q.question, answers := q.answers, correct_index := some 0 }) ∧
    (∀ jj t, q.answers.get? jj = some t →
      getJ (projectAnswer (skelAnswerTemplate tc) 0 jj t) "correct" =
        Json.bool (decide (jj = 0))) ∧
    preview_flags_missing q = true := by
  obtain ⟨tfs, bfs, pfs, mfs, afs, brest, arest, htc, hqk, hp, hm, ha⟩ :=
    templateWF_elim tc hwf
  have hskel : skelOf tc = Json.obj bfs := by
    subst htc
    simp [skelOf, getJ, hqk, headJ]
  have hat : skelAnswerTemplate tc = Json.obj afs := by
    rw [skelAnswerTemplate, hskel]
    simp [getJ, hp, ha, headJ]
  refine ⟨by rw [build_questions_ok uuid mc tc hwf]; rfl, ?_, fun jj t ht => ?_, ?_⟩
  · rw [buildPure_get uuid (skelOf tc) mc 0 j q hq, Nat.zero_add]
    have : projectQuestion uuid (skelOf tc) j q =
        projectQuestion uuid (skelOf tc) j
          { question := q.question, answers := q.answers, correct_index := some 0 } := by
      simp [projectQuestion, habsent]
    rw [this]
  · rw [hat, projectAnswer_correct afs 0 jj t]
    have : decide ((jj : Int) = 0) = decide (jj = 0) := by
      rw [decide_eq_decide]
      exact Int.natCast_eq_zero
    rw [this]
  · simp [preview_flags_missing, preview_correct_index, habsent]

theorem claim_C7_witness :
    isErrB (build_questions_from_mc uuidW [recNoIdx] wfContent) = false ∧
    getJ (projectAnswer (skelAnswerTemplate wfContent) 0 0 "X") "correct" =
      Json.bool true ∧
    getJ (projectAnswer (skelAnswerTemplate wfContent) 0 1 "Y") "correct" =
      Json.bool false ∧
    getJ (projectAnswer (skelAnswerTemplate wfContent) 0 2 "Z") "correct" =
      Json.bool false ∧
    preview_flags_missing recNoIdx = true := by
  have h := claim_C7_missing_correct_index uuidW wfContent [recNoIdx] 0 recNoIdx
    rfl rfl rfl
  exact ⟨h.1, h.2.2.1 0 "X" rfl, h.2.2.1 1 "Y" rfl, h.2.2.1 2 "Z" rfl, h.2.2.2⟩

/-- C10: a present but out-of-range `correct_index` (negative, or at
least the record's answer count) is merged without error, and no answer
entry of the generated question is flagged correct — every `correct` flag
is false. -/
theorem claim_C10_out_of_range (uuid : Nat → String) (tc : Json)
    (mc : List QuestionRecord) (j : Nat) (q : QuestionRecord) (ci : Int)
    (hwf : templateWF tc = true)
    (hq : mc.get? j = some q)
    (hci : q.correct_index = some ci)
    (hout : ci < 0 ∨ (q.answers.length : Int) ≤ ci) :
    isErrB (build_questions_from_mc uuid mc tc) = false ∧
    ((buildPure uuid (skelOf tc) 0 mc).get? j).map
        (fun qq => getJ (getJ qq "params") "answers") =
      some (Json.arr (projectAnswers (skelAnswerTemplate tc) ci q.answers 0)) ∧
    (∀ jj t, q.answers.get? jj = some t →
      getJ (projectAnswer (skelAnswerTemplate tc) ci jj t) "correct" =
        Json.bool false) := by
  obtain ⟨tfs, bfs, pfs, mfs, afs, brest, arest, htc, hqk, hp, hm, ha⟩ :=
    templateWF_elim tc hwf
  have hskel : skelOf tc = Json.obj bfs := by
    subst htc
    simp [skelOf, getJ, hqk, headJ]
  have hat : skelAnswerTemplate tc = Json.obj afs := by
    rw [skelAnswerTemplate, hskel]
    simp [getJ, hp, ha, headJ]
  refine ⟨by rw [build_questions_ok uuid mc tc hwf]; rfl, ?_, fun jj t ht => ?_⟩
  · rw [hskel, buildPure_get uuid (Json.obj bfs) mc 0 j q hq]
    simp only [Option.map_some', Nat.zero_add]
    rw [projectQuestion_answers uuid bfs pfs j q hp, hci]
    rw [hat]
    simp [getJ, ha, headJ, Option.getD]
  · have hlt : jj < q.answers.length := by
      by_contra hge
      rw [List.get?_eq_none.mpr (Nat.le_of_not_lt hge)] at ht
      exact absurd ht (by simp)
    have hne : ¬((jj : Int) = ci) := by
      have hlt2 : (jj : Int) < (q.answers.length : Int) := by exact_mod_cast hlt
      have h0 : (0 : Int) ≤ (jj : Int) := Int.natCast_nonneg jj
      rcases hout with h | h <;> omega
    rw [hat, projectAnswer_correct afs ci jj t, decide_eq_false hne]

theorem claim_C10_witness :
    isErrB (build_questions_from_mc uuidW [recOutOfRange] wfContent) = false ∧
    getJ (projectAnswer (skelAnswerTemplate wfContent) 7 0 "P") "correct" =
      Json.bool false ∧
    getJ (projectAnswer (skelAnswerTemplate wfContent) 7 1 "Q") "correct" =
      Json.bool false := by
  have h := claim_C10_out_of_range uuidW wfContent [recOutOfRange] 0 recOutOfRange 7
    rfl rfl rfl (Or.inr (by decide))
  exact ⟨h.1, h.2.2 0 "P" rfl, h.2.2 1 "Q" rfl⟩

/-- C1: for a well-formed template (content description present,
parseable, with at least one template-shaped question) and any list of M
records — M = 0 included — the merge succeeds; the updated content
description holds exactly M questions (an empty array for M = 0), each
question carries the fresh identifier of its iteration and the
identifiers are pairwise distinct (the uuid stream being injective), and
every top-level field other than `questions` is unchanged. -/
theorem claim_C1_merge_shape (uuid : Nat → String) (template : List ZEntry)
    (mc : List QuestionRecord) (s : String) (tc : Json)
    (hinj : Function.Injective uuid)
    (hz : zipRead template cpath = Except.ok s)
    (hl : loads s = some tc)
    (hwf : templateWF tc = true) :
    isErrB (create_h5p_from_template uuid template mc) = false ∧
    mergedContent uuid template mc =
      Except.ok (setJ tc "questions"
        (Json.arr (buildPure uuid (skelOf tc) 0 mc))) ∧
    getJ (setJ tc "questions" (Json.arr (buildPure uuid (skelOf tc) 0 mc)))
        "questions" = Json.arr (buildPure uuid (skelOf tc) 0 mc) ∧
    (buildPure uuid (skelOf tc) 0 mc).length = mc.length ∧
    (buildPure uuid (skelOf tc) 0 mc).map (fun qq => getJ qq "subContentId") =
      (List.range' 0 mc.length).map (fun t => Json.str (uuid t)) ∧
    ((buildPure uuid (skelOf tc) 0 mc).map
        (fun qq => getJ qq "subContentId")).Nodup ∧
    (∀ kk, kk ≠ "questions" →
      getJ (setJ tc "questions" (Json.arr (buildPure uuid (skelOf tc) 0 mc))) kk =
        getJ tc kk) := by
  obtain ⟨tfs, bfs, pfs, mfs, afs, brest, arest, htc, hqk, hp, hm, ha⟩ :=
    templateWF_elim tc hwf
  have hskel : skelOf tc = Json.obj bfs := by
    subst htc
    simp [skelOf, getJ, hqk, headJ]
  have hco := create_h5p_ok uuid template mc s tc hz hl hwf
  refine ⟨by rw [hco.2]; rfl, hco.1, ?_, buildPure_length uuid _ mc 0, ?_, ?_, ?_⟩
  · rw [htc]
    exact getJ_setJ_self tfs "questions" _
  · rw [hskel]
    exact buildPure_ids uuid bfs mc 0
  · rw [hskel, buildPure_ids uuid bfs mc 0]
    apply List.Nodup.map
    · intro a b hab
      injection hab with h2
      exact hinj h2
    · exact List.nodup_range' 0 mc.length
  · intro kk hkk
    rw [htc]
    exact getJ_setJ_other tfs "questions" kk _ hkk

theorem claim_C1_witness :
    isErrB (create_h5p_from_template uuidW wfArchive [recABCD, recNoIdx]) = false ∧
    (buildPure uuidW (skelOf wfContent) 0 [recABCD, recNoIdx]).length = 2 ∧
    ((buildPure uuidW (skelOf wfContent) 0 [recABCD, recNoIdx]).map
        (fun qq => getJ qq "subContentId")).Nodup ∧
    getJ (setJ wfContent "questions"
        (Json.arr (buildPure uuidW (skelOf wfContent) 0 [recABCD, recNoIdx])))
        "title" = getJ wfContent "title" ∧
    isErrB (create_h5p_from_template uuidW wfArchive []) = false ∧
    (buildPure uuidW (skelOf wfContent) 0 []).length = 0 := by
  have h := claim_C1_merge_shape uuidW wfArchive [recABCD, recNoIdx]
    (dumpJson wfContent) wfContent uuidW_injective rfl rfl rfl
  have h0 := claim_C1_merge_shape uuidW wfArchive [] (dumpJson wfContent) wfContent
    uuidW_injective rfl rfl rfl
  exact ⟨h.1, h.2.2.2.1, h.2.2.2.2.2.1, h.2.2.2.2.2.2 "title" (by decide),
    h0.1, h0.2.2.2.1⟩

/-- C4: distinct generated questions — and a generated question and the
previously-parsed skeleton — own disjoint sets of mutable heap cells, so
mutating any cell of one generated question's object graph leaves every
cell of every other generated question and of the skeleton unchanged:
deep copying shares no mutable substructure. -/
theorem claim_C4_deepcopy_isolation (uuid : Nat → String)
    (mc : List QuestionRecord) (tc : Json) (n0 : Nat) (skelHeap : Heap)
    (i j : Nat) (fri frj : HVal × Heap)
    (hij : i ≠ j)
    (hfi : (questionHeapFragments uuid mc tc n0).get? i = some fri)
    (hfj : (questionHeapFragments uuid mc tc n0).get? j = some frj)
    (hskel : ∀ a ∈ skelHeap.map Prod.fst, a < n0) :
    (∀ a ∈ fragDom fri, ¬(a ∈ fragDom frj)) ∧
    (∀ a ∈ fragDom fri, ¬(a ∈ skelHeap.map Prod.fst)) ∧
    (∀ (H : Heap) (a : Nat) (nd : HNode) (b : Nat), a ∈ fragDom fri →
      (b ∈ fragDom frj ∨ b ∈ skelHeap.map Prod.fst) →
      hlookup (hset H a nd) b = hlookup H b) := by
  unfold questionHeapFragments at hfi hfj
  cases hb : build_questions_from_mc uuid mc tc with
  | error e =>
      rw [hb] at hfi
      simp at hfi
  | ok qs =>
      rw [hb] at hfi hfj
      have hdisj : ∀ a ∈ fragDom fri, ∀ b ∈ fragDom frj, a ≠ b := by
        rcases Nat.lt_or_ge i j with hlt | hge2
        · intro a ha b hb2
          exact Nat.ne_of_lt (allocSeq_sep qs n0 i j fri frj hlt hfi hfj a ha b hb2)
        · have hlt : j < i := Nat.lt_of_le_of_ne hge2 (Ne.symm hij)
          intro a ha b hb2
          exact (Nat.ne_of_lt
            (allocSeq_sep qs n0 j i frj fri hlt hfj hfi b hb2 a ha)).symm
      have hge : ∀ a ∈ fragDom fri, n0 ≤ a := fun a ha =>
        ((allocSeq_bounds qs n0).2 fri (List.get?_mem hfi) a ha).1
      refine ⟨fun a ha hmem => hdisj a ha a hmem rfl, fun a ha hmem => ?_, ?_⟩
      · have h1 := hskel a hmem
        have h2 := hge a ha
        omega
      · intro H a nd b ha hb2
        have hab : a ≠ b := by
          rcases hb2 with hb2 | hb2
          · exact hdisj a ha b hb2
          · have h1 := hskel b hb2
            have h2 := hge a ha
            omega
        exact hlookup_hset_ne H a b nd hab

theorem claim_C4_witness :
    ¬(((fragDom friW).headD 0) ∈ fragDom frjW) ∧
    hlookup (hset (friW.2 ++ frjW.2) ((fragDom friW).headD 0) (HNode.dict []))
        ((fragDom frjW).headD 0) =
      hlookup (friW.2 ++ frjW.2) ((fragDom frjW).headD 0) := by
  have h := claim_C4_deepcopy_isolation uuidW [recABCD, recNoIdx] wfContent 100
    [(0, HNode.dict [])] 0 1 friW frjW (by decide) rfl rfl (by decide)
  have hmem1 : ((fragDom friW).headD 0) ∈ fragDom friW := by decide
  have hmem2 : ((fragDom frjW).headD 0) ∈ fragDom frjW := by decide
  exact ⟨h.1 _ hmem1, h.2.2 (friW.2 ++ frjW.2) _ (HNode.dict []) _ hmem1
    (Or.inl hmem2)⟩

end QuizFromUserText
